import Mathlib

set_option autoImplicit false

/-!
# Risor: the `math` builtin module, the `gha` helpers and the proxied `Service`

A shallow embedding of `internal/modules/math/math.go`, `modules/gha/gha.go` and
`examples/go/struct/main.go`.

* Go's `int64` and `int` are an `Int` kept in range by `wrapInt64`.
* Go's `float64` is the IEEE 754 binary64 bit pattern (`Float64`): comparison
  and the conversion from `int64` are computed exactly on the bits.
* `object.Object` is the inductive `Object`; the names of its kinds are a parameter.
* A Go `string` is a `String`, valid UTF-8 text.
* A run-time panic (index out of range) is the `Except.error` branch of `Outcome`.
* The functions of Go's `math` package are a parameter (`GoMath`).
-/

namespace Risor

/-! ## Machine integers -/

/-- Go's `int64` arithmetic wraps: the representative of `x` modulo `2^64` in `[-2^63, 2^63)`. -/
def wrapInt64 (x : Int) : Int := (x + 9223372036854775808) % 18446744073709551616 - 9223372036854775808

/-- The values an `int64` holds. -/
def isInt64 (x : Int) : Prop := -9223372036854775808 ≤ x ∧ x < 9223372036854775808

instance (x : Int) : Decidable (isInt64 x) := by unfold isInt64; infer_instance

/-! ## IEEE 754 binary64 -/

/-- A `float64`: sign bit, 11-bit biased exponent, 52-bit fraction. -/
structure Float64 where
  sign : Bool
  exp : Fin 2048
  frac : Fin 4503599627370496
deriving DecidableEq

namespace Float64

/-- Positive zero, the zero value of a Go `float64` variable and the literal `0`. -/
def zero : Float64 := ⟨false, ⟨0, by decide⟩, ⟨0, by decide⟩⟩

/-- NaN: exponent all ones, fraction non-zero. -/
def isNaN (x : Float64) : Bool := x.exp.val == 2047 && x.frac.val != 0

/-- Infinity of either sign: exponent all ones, fraction zero (`math.IsInf(x, 0)`). -/
def isInf (x : Float64) : Bool := x.exp.val == 2047 && x.frac.val == 0

/-- The magnitude bits (exponent and fraction), monotone in the absolute value. -/
def mag (x : Float64) : Nat := x.exp.val * 4503599627370496 + x.frac.val

/-- An integer that orders the non-NaN values as IEEE 754 does; both zeros map to `0`. -/
def key (x : Float64) : Int := if x.sign then -(x.mag : Int) else (x.mag : Int)

/-- Go's `x < y` on `float64`: false when either side is NaN. -/
def lt (x y : Float64) : Bool := !x.isNaN && !y.isNaN && decide (x.key < y.key)

/-- Go's `x > y` on `float64`. -/
def gt (x y : Float64) : Bool := lt y x

/-- Go's `x >= y` on `float64`: false when either side is NaN. -/
def ge (x y : Float64) : Bool := !x.isNaN && !y.isNaN && decide (y.key ≤ x.key)

/-- Go's `v * -1` on `float64`: the sign bit is flipped (a NaN stays a NaN). -/
def mulNegOne (v : Float64) : Float64 := { v with sign := !v.sign }

/-- The index of the highest set bit of `n`, for `n < 2 ^ fuel`. -/
def topBit : Nat → Nat → Nat
  | 0, _ => 0
  | fuel + 1, n => if n < 2 then 0 else topBit fuel (n / 2) + 1

/-- The `float64` nearest to a positive magnitude `n < 2^64`, ties to even. -/
def ofMag (sign : Bool) (n : Nat) : Float64 :=
  let k := topBit 64 n
  if k ≤ 52 then
    ⟨sign, ⟨(1023 + k) % 2048, Nat.mod_lt _ (by decide)⟩,
      ⟨(n * 2 ^ (52 - k)) % 4503599627370496, Nat.mod_lt _ (by decide)⟩⟩
  else
    let sh := k - 52
    let q := n / 2 ^ sh
    let r := n % 2 ^ sh
    let half := 2 ^ (sh - 1)
    let up : Bool := decide (half < r) || (decide (r = half) && decide (q % 2 = 1))
    let q1 := if up then q + 1 else q
    if q1 = 9007199254740992 then
      ⟨sign, ⟨(1023 + k + 1) % 2048, Nat.mod_lt _ (by decide)⟩, ⟨0, by decide⟩⟩
    else
      ⟨sign, ⟨(1023 + k) % 2048, Nat.mod_lt _ (by decide)⟩,
        ⟨q1 % 4503599627370496, Nat.mod_lt _ (by decide)⟩⟩

/-- Go's conversion `float64(i)` of an `int64`: round to nearest, ties to even. -/
def ofInt64 (i : Int) : Float64 :=
  if i = 0 then zero else ofMag (decide (i < 0)) i.natAbs

end Float64

/-! ## Objects -/

/-- The `object.Object` values. `Set` carries the slice its `Array()` method returns;
`Other` stands for every further implementation of the interface. -/
inductive Object where
  | Integer (Value : Int)
  | Float (Value : Float64)
  | Boolean (Value : Bool)
  | String (Value : String)
  | Array (Elements : List Object)
  | Set (Items : List Object)
  | Error (Message : String)
  | Nil
  | Other (kind : Nat)

/-- What `obj.Type()` prints as under `%s` and `%v`. Package `object` is not part of
the sources, so the kind names are a parameter of every function that prints one. -/
abbrev TypeNames := Object → String

/-- A run-time panic of the Go program. -/
inductive Panic where
  | indexOutOfRange
deriving DecidableEq

/-- What a call of a builtin does: it returns an object, or the program panics. -/
abbrev Outcome := Except Panic Object

/-! ## `fmt.Sprintf` on a format string without operands

`RequireArgs` hands an already formatted message to `object.NewError`, which formats
its first argument again (`fmt.Sprintf(format, a...)` with `a` empty). The functions
below follow `doPrintf` of Go's `fmt/print.go` for an empty operand list: text is
copied up to each `%`, and a directive prints `%` for `%%` and an error marker for
every other verb. -/

/-- The flag characters `doPrintf` skips after a `%`. -/
def isFlag (c : Char) : Bool := c == '#' || c == '0' || c == '+' || c == '-' || c == ' '

/-- Skips the flags at the start of a directive. -/
def skipFlags : List Char → List Char
  | [] => []
  | c :: cs => if isFlag c then skipFlags cs else c :: cs

/-- The guard `tooLarge` of `fmt/print.go`. -/
def tooLarge (x : Nat) : Bool := decide (1000000 < x)

/-- The loop of `parsenum`: the number read so far, whether a digit was read, and the
text left (`none` when the number overflowed and the cursor jumped to the end). -/
def parsenum : Nat → Bool → List Char → Nat × Bool × Option (List Char)
  | num, isnum, [] => (num, isnum, some [])
  | num, isnum, c :: cs =>
    if '0' ≤ c ∧ c ≤ '9' then
      if tooLarge num then (0, false, none)
      else parsenum (num * 10 + (c.toNat - '0'.toNat)) true cs
    else (num, isnum, some (c :: cs))

/-- The function `parseArgNumber`, called on text that starts with `[`: how many
characters the bracket group takes and whether it holds a well-formed index. -/
def parseArgNumber (format : List Char) : Nat × Bool :=
  if format.length < 3 then (1, false)
  else
    match (format.drop 1).indexOf? ']' with
    | none => (1, false)
    | some j =>
      match parsenum 0 false ((format.drop 1).take j) with
      | (_, true, some []) => (j + 2, true)
      | _ => (j + 2, false)

/-- The method `argNumber` with no operands: an index group is skipped, marks the
directive's argument number as bad, and reports whether it was well-formed. -/
def argNumber (goodArgNum : Bool) (format : List Char) : Bool × List Char × Bool :=
  match format with
  | '[' :: _ =>
    let r := parseArgNumber format
    (false, format.drop r.1, r.2)
  | _ => (goodArgNum, format, false)

/-- The width part of a directive: output written, `goodArgNum`, `afterIndex`, text left. -/
def widthPart (goodArgNum afterIndex : Bool) (format : List Char) :
    List Char × Bool × Bool × List Char :=
  match format with
  | '*' :: rest => ("%!(BADWIDTH)".data, goodArgNum, false, rest)
  | _ =>
    match parsenum 0 false format with
    | (_, widPresent, rest) =>
      ([], goodArgNum && !(afterIndex && widPresent), afterIndex, rest.getD [])

/-- The precision part of a directive: output written, `goodArgNum`, `afterIndex`, text left. -/
def precPart (goodArgNum afterIndex : Bool) (format : List Char) :
    List Char × Bool × Bool × List Char :=
  match format with
  | '.' :: rest =>
    match argNumber (goodArgNum && !afterIndex) rest with
    | (good, '*' :: rest1, _) => ("%!(BADPREC)".data, good, false, rest1)
    | (good, rest1, after) => ([], good, after, ((parsenum 0 false rest1).2.2).getD [])
  | _ => ([], goodArgNum, afterIndex, format)

/-- One directive, from the character after `%`: the output written and the text left. -/
def directive (format : List Char) : List Char × List Char :=
  match argNumber true (skipFlags format) with
  | (good1, rest1, after1) =>
    match widthPart good1 after1 rest1 with
    | (out2, good2, after2, rest2) =>
      match precPart good2 after2 rest2 with
      | (out3, good3, after3, rest3) =>
        match (if after3 then (good3, rest3, after3) else argNumber good3 rest3) with
        | (_, [], _) => (out2 ++ out3 ++ "%!(NOVERB)".data, [])
        | (good4, verb :: rest4, _) =>
          if verb = '%' then (out2 ++ out3 ++ ['%'], rest4)
          else if !good4 then (out2 ++ out3 ++ "%!".data ++ [verb] ++ "(BADINDEX)".data, rest4)
          else (out2 ++ out3 ++ "%!".data ++ [verb] ++ "(MISSING)".data, rest4)

/-- The format loop of `doPrintf` with no operands; every step consumes a character,
so `fuel` equal to the length of the format is enough. -/
def doPrintf : Nat → List Char → List Char
  | 0, _ => []
  | _ + 1, [] => []
  | fuel + 1, c :: cs =>
    if c = '%' then (directive cs).1 ++ doPrintf fuel (directive cs).2
    else c :: doPrintf fuel cs

/-- The call `fmt.Sprintf(format)`. -/
def Sprintf0 (format : String) : String := ⟨doPrintf format.length format.data⟩

/-- Modelled from the spec: `object.NewError`, whose package `object` is not among the
sources. The spec gives the constructor as `fail(category, format, args...)`, and every
call of `math.go` with an operand passes a format and the operand: the message is
`fmt.Sprintf(format, a...)`. This is the call without operands; a call with a constant
format and one operand is written out in place as the text around the operand. -/
def NewError (format : String) : Object := .Error (Sprintf0 format)

/-! ## Go's `math` package

The functions of Go's standard `math` package the module calls, and the conversion
`int(x)` of a `float64`. They are not part of the sources; the builtins take them as
a parameter. `math.IsInf(x, 0)` is `Float64.isInf`. -/

/-- The standard-library functions the module calls. -/
structure GoMath where
  Sqrt : Float64 → Float64
  Ceil : Float64 → Float64
  Floor : Float64 → Float64
  Sin : Float64 → Float64
  Cos : Float64 → Float64
  Tan : Float64 → Float64
  Mod : Float64 → Float64 → Float64
  Log : Float64 → Float64
  Log10 : Float64 → Float64
  Log2 : Float64 → Float64
  Pow : Float64 → Float64 → Float64
  Pow10 : Int → Float64
  Round : Float64 → Float64
  toInt : Float64 → Int

/-! ## `internal/modules/math/math.go` -/

/-- The expression `args[i]`: a panic when `i` is not an index of `args`. -/
def index (args : List Object) (i : Nat) : Except Panic Object :=
  match args[i]? with
  | some arg => .ok arg
  | none => .error .indexOutOfRange

/-- The function `ToFloat`. -/
def ToFloat (value : Float64) : Object := .Float value

/-- The function `ToBoolean`. -/
def ToBoolean (value : Bool) : Object := if value then .Boolean true else .Boolean false

/-- The function `AsFloat`: the pair of results, the second `none` for a nil error. -/
def AsFloat (typeName : TypeNames) (obj : Object) : Float64 × Option Object :=
  match obj with
  | .Integer v => (Float64.ofInt64 v, none)
  | .Float v => (v, none)
  | obj => (Float64.zero, some (.Error ("type error: expected a number (got " ++ typeName obj ++ ")")))

/-- The function `RequireArgs`: `none` is the nil error. -/
def RequireArgs (funcName : String) (count : Int) (args : List Object) : Option Object :=
  let nArgs := args.length
  if (nArgs : Int) ≠ count then
    some (NewError
      ("type error: " ++ funcName ++ "() takes exactly one argument (" ++ toString nArgs ++ " given)"))
  else none

/-- The builtin `Abs`. -/
def Abs (typeName : TypeNames) (args : List Object) : Outcome :=
  match RequireArgs "math.abs" 1 args with
  | some err => .ok err
  | none =>
    match index args 0 with
    | .error p => .error p
    | .ok (.Integer v) => .ok (.Integer (if v < 0 then wrapInt64 (v * -1) else v))
    | .ok (.Float v) => .ok (ToFloat (if v.lt Float64.zero then v.mulNegOne else v))
    | .ok arg =>
      .ok (.Error ("type error: argument to math.abs not supported, got=" ++ typeName arg))

/-- The builtin `Sqrt`. -/
def Sqrt (m : GoMath) (typeName : TypeNames) (args : List Object) : Outcome :=
  match RequireArgs "math.sqrt" 1 args with
  | some err => .ok err
  | none =>
    match index args 0 with
    | .error p => .error p
    | .ok (.Integer v) => .ok (.Float (m.Sqrt (Float64.ofInt64 v)))
    | .ok (.Float v) => .ok (.Float (m.Sqrt v))
    | .ok arg =>
      .ok (.Error ("type error: argument to math.sqrt not supported, got=" ++ typeName arg))

/-- The type switch at the head of `Max` and `Min`: the elements of an `Array` or `Set`. -/
def elementsOf : Object → Option (List Object)
  | .Array elements => some elements
  | .Set items => some items
  | _ => none

/-- The loop variables of `Max` and `Min`: the best float and integer so far, and
whether one was seen. Go starts them at `0`, `0`, `false`, `false`. -/
structure Best where
  flt : Float64 := Float64.zero
  int : Int := 0
  hasFlt : Bool := false
  hasInt : Bool := false

/-- The `for` loop of `Max`: `.error` is the early return of the error object. -/
def maxLoop (typeName : TypeNames) : List Object → Best → Except Object Best
  | [], st => .ok st
  | .Integer v :: rest, st =>
    maxLoop typeName rest
      (if !st.hasInt || decide (st.int < v) then { st with int := v, hasInt := true } else st)
  | .Float v :: rest, st =>
    maxLoop typeName rest
      (if !st.hasFlt || st.flt.lt v then { st with flt := v, hasFlt := true } else st)
  | val :: _, _ => .error (.Error ("invalid array item for math.max: " ++ typeName val))

/-- The builtin `Max`. -/
def Max (typeName : TypeNames) (args : List Object) : Outcome :=
  match RequireArgs "math.max" 1 args with
  | some err => .ok err
  | none =>
    match index args 0 with
    | .error p => .error p
    | .ok arg =>
      match elementsOf arg with
      | none => .ok (.Error ("type error: " ++ typeName arg ++ " object is not iterable"))
      | some array =>
        if array.length = 0 then
          .ok (NewError "value error: math.max argument is an empty sequence")
        else
          match maxLoop typeName array {} with
          | .error err => .ok err
          | .ok st =>
            if st.hasFlt then
              if st.hasInt && (Float64.ofInt64 st.int).gt st.flt then
                .ok (ToFloat (Float64.ofInt64 st.int))
              else .ok (ToFloat st.flt)
            else .ok (ToFloat (Float64.ofInt64 st.int))

/-- The `for` loop of `Min`: `.error` is the early return of the error object. -/
def minLoop (typeName : TypeNames) : List Object → Best → Except Object Best
  | [], st => .ok st
  | .Integer v :: rest, st =>
    minLoop typeName rest
      (if !st.hasInt || decide (st.int > v) then { st with int := v, hasInt := true } else st)
  | .Float v :: rest, st =>
    minLoop typeName rest
      (if !st.hasFlt || st.flt.gt v then { st with flt := v, hasFlt := true } else st)
  | val :: _, _ =>
    .error (.Error ("type error: invalid array item for math.min: " ++ typeName val))

/-- The builtin `Min`. -/
def Min (typeName : TypeNames) (args : List Object) : Outcome :=
  match RequireArgs "math.min" 1 args with
  | some err => .ok err
  | none =>
    match index args 0 with
    | .error p => .error p
    | .ok arg =>
      match elementsOf arg with
      | none => .ok (.Error ("type error: " ++ typeName arg ++ " object is not iterable"))
      | some array =>
        if array.length = 0 then
          .ok (NewError "value error: math.min argument is an empty sequence")
        else
          match minLoop typeName array {} with
          | .error err => .ok err
          | .ok st =>
            if st.hasFlt then
              if st.hasInt && (Float64.ofInt64 st.int).lt st.flt then
                .ok (ToFloat (Float64.ofInt64 st.int))
              else .ok (ToFloat st.flt)
            else .ok (ToFloat (Float64.ofInt64 st.int))

/-- The builtin `Ceil`. -/
def Ceil (m : GoMath) (typeName : TypeNames) (args : List Object) : Outcome :=
  match RequireArgs "math.ceil" 1 args with
  | some err => .ok err
  | none =>
    match index args 0 with
    | .error p => .error p
    | .ok (.Integer v) => .ok (.Integer v)
    | .ok (.Float v) => .ok (ToFloat (m.Ceil v))
    | .ok arg =>
      .ok (.Error ("type error: argument to math.ceil not supported, got=" ++ typeName arg))

/-- The builtin `Floor`. -/
def Floor (m : GoMath) (typeName : TypeNames) (args : List Object) : Outcome :=
  match RequireArgs "math.floor" 1 args with
  | some err => .ok err
  | none =>
    match index args 0 with
    | .error p => .error p
    | .ok (.Integer v) => .ok (.Integer v)
    | .ok (.Float v) => .ok (ToFloat (m.Floor v))
    | .ok arg =>
      .ok (.Error ("type error: argument to math.floor not supported, got=" ++ typeName arg))

/-- The builtin `Sin`. -/
def Sin (m : GoMath) (typeName : TypeNames) (args : List Object) : Outcome :=
  match RequireArgs "math.sin" 1 args with
  | some err => .ok err
  | none =>
    match index args 0 with
    | .error p => .error p
    | .ok (.Integer v) => .ok (ToFloat (m.Sin (Float64.ofInt64 v)))
    | .ok (.Float v) => .ok (ToFloat (m.Sin v))
    | .ok arg =>
      .ok (.Error ("type error: argument to math.sin not supported, got=" ++ typeName arg))

/-- The builtin `Cos`. -/
def Cos (m : GoMath) (typeName : TypeNames) (args : List Object) : Outcome :=
  match RequireArgs "math.cos" 1 args with
  | some err => .ok err
  | none =>
    match index args 0 with
    | .error p => .error p
    | .ok (.Integer v) => .ok (ToFloat (m.Cos (Float64.ofInt64 v)))
    | .ok (.Float v) => .ok (ToFloat (m.Cos v))
    | .ok arg =>
      .ok (.Error ("type error: argument to math.cos not supported, got=" ++ typeName arg))

/-- The builtin `Tan`. -/
def Tan (m : GoMath) (typeName : TypeNames) (args : List Object) : Outcome :=
  match RequireArgs "math.tan" 1 args with
  | some err => .ok err
  | none =>
    match index args 0 with
    | .error p => .error p
    | .ok arg0 =>
      match AsFloat typeName arg0 with
      | (_, some err) => .ok err
      | (x, none) => .ok (ToFloat (m.Tan x))

/-- The builtin `Mod`. -/
def Mod (m : GoMath) (typeName : TypeNames) (args : List Object) : Outcome :=
  match RequireArgs "math.mod" 2 args with
  | some err => .ok err
  | none =>
    match index args 0 with
    | .error p => .error p
    | .ok arg0 =>
      match AsFloat typeName arg0 with
      | (_, some err) => .ok err
      | (x, none) =>
        match index args 1 with
        | .error p => .error p
        | .ok arg1 =>
          match AsFloat typeName arg1 with
          | (_, some err) => .ok err
          | (y, none) => .ok (ToFloat (m.Mod x y))

/-- The builtin `Log`. -/
def Log (m : GoMath) (typeName : TypeNames) (args : List Object) : Outcome :=
  match RequireArgs "math.log" 1 args with
  | some err => .ok err
  | none =>
    match index args 0 with
    | .error p => .error p
    | .ok arg0 =>
      match AsFloat typeName arg0 with
      | (_, some err) => .ok err
      | (x, none) => .ok (ToFloat (m.Log x))

/-- The builtin `Log10`. -/
def Log10 (m : GoMath) (typeName : TypeNames) (args : List Object) : Outcome :=
  match RequireArgs "math.log10" 1 args with
  | some err => .ok err
  | none =>
    match index args 0 with
    | .error p => .error p
    | .ok arg0 =>
      match AsFloat typeName arg0 with
      | (_, some err) => .ok err
      | (x, none) => .ok (ToFloat (m.Log10 x))

/-- The builtin `Log2`. -/
def Log2 (m : GoMath) (typeName : TypeNames) (args : List Object) : Outcome :=
  match RequireArgs "math.log2" 1 args with
  | some err => .ok err
  | none =>
    match index args 0 with
    | .error p => .error p
    | .ok arg0 =>
      match AsFloat typeName arg0 with
      | (_, some err) => .ok err
      | (x, none) => .ok (ToFloat (m.Log2 x))

/-- The builtin `Pow`. -/
def Pow (m : GoMath) (typeName : TypeNames) (args : List Object) : Outcome :=
  match RequireArgs "math.pow" 2 args with
  | some err => .ok err
  | none =>
    match index args 0 with
    | .error p => .error p
    | .ok arg0 =>
      match AsFloat typeName arg0 with
      | (_, some err) => .ok err
      | (x, none) =>
        match index args 1 with
        | .error p => .error p
        | .ok arg1 =>
          match AsFloat typeName arg1 with
          | (_, some err) => .ok err
          | (y, none) => .ok (ToFloat (m.Pow x y))

/-- The builtin `Pow10`. -/
def Pow10 (m : GoMath) (typeName : TypeNames) (args : List Object) : Outcome :=
  match RequireArgs "math.pow10" 1 args with
  | some err => .ok err
  | none =>
    match index args 0 with
    | .error p => .error p
    | .ok arg0 =>
      match AsFloat typeName arg0 with
      | (_, some err) => .ok err
      | (x, none) => .ok (ToFloat (m.Pow10 (m.toInt x)))

/-- The builtin `IsInf`. -/
def IsInf (typeName : TypeNames) (args : List Object) : Outcome :=
  match RequireArgs "math.is_inf" 1 args with
  | some err => .ok err
  | none =>
    match index args 0 with
    | .error p => .error p
    | .ok arg0 =>
      match AsFloat typeName arg0 with
      | (_, some err) => .ok err
      | (x, none) => .ok (ToBoolean x.isInf)

/-- The builtin `Round`. -/
def Round (m : GoMath) (typeName : TypeNames) (args : List Object) : Outcome :=
  match RequireArgs "math.round" 1 args with
  | some err => .ok err
  | none =>
    match index args 0 with
    | .error p => .error p
    | .ok arg0 =>
      match AsFloat typeName arg0 with
      | (_, some err) => .ok err
      | (x, none) => .ok (ToFloat (m.Round x))

/-! ## The reduction as the specification words it

"Tracking the best integer seen and the best float seen independently": the Integers
and the Floats of the sequence are taken apart, and the best of each is the first one,
replaced by every later one that beats the best so far. -/

/-- Whether an object is an Integer or a Float. -/
def isNumeric : Object → Bool
  | .Integer _ => true
  | .Float _ => true
  | _ => false

/-- The Floats of a sequence, in order. -/
def floatsOf : List Object → List Float64
  | [] => []
  | .Float v :: rest => v :: floatsOf rest
  | _ :: rest => floatsOf rest

/-- The Integers of a sequence, in order. -/
def integersOf : List Object → List Int
  | [] => []
  | .Integer v :: rest => v :: integersOf rest
  | _ :: rest => integersOf rest

/-- The best element seen, scanning left to right; `beats y best` says that `y`
replaces the best so far. There is none in an empty sequence. -/
def bestOf {α : Type} (beats : α → α → Bool) : List α → Option α
  | [] => none
  | x :: xs => some (xs.foldl (fun best y => if beats y best then y else best) x)

/-- In a maximum an Integer beats a smaller one. -/
def maxBeatsInt (y best : Int) : Bool := decide (best < y)

/-- In a maximum a Float beats one that is less under the native comparison. -/
def maxBeatsFlt (y best : Float64) : Bool := best.lt y

/-- In a minimum an Integer beats a greater one. -/
def minBeatsInt (y best : Int) : Bool := decide (best > y)

/-- In a minimum a Float beats one that is greater under the native comparison. -/
def minBeatsFlt (y best : Float64) : Bool := best.gt y

/-- One step of a loop that tracks a best value behind a `has` flag. -/
def track {α : Type} (beats : α → α → Bool) (st : Bool × α) (y : α) : Bool × α :=
  if !st.1 || beats y st.2 then (true, y) else st

/-- The text `RequireArgs` builds with `fmt.Sprintf` before it is handed to `NewError`. -/
def arityMessage (funcName : String) (nArgs : Nat) : String :=
  "type error: " ++ funcName ++ "() takes exactly one argument (" ++ toString nArgs ++ " given)"

/-- The value of the two-track reduction: the best Float, unless an Integer was seen
whose best, widened to floating point, beats it; the widened best Integer when no Float
was seen. (`0` widened when the sequence holds no number, as the loop variables start.) -/
def widenedBest (beatsInt : Int → Int → Bool) (beatsFlt : Float64 → Float64 → Bool)
    (xs : List Object) : Float64 :=
  match bestOf beatsFlt (floatsOf xs), bestOf beatsInt (integersOf xs) with
  | some f, some i => if beatsFlt (Float64.ofInt64 i) f then Float64.ofInt64 i else f
  | some f, none => f
  | none, some i => Float64.ofInt64 i
  | none, none => Float64.ofInt64 0

/-- Whether an object is an error object. -/
def isError : Object → Bool
  | .Error _ => true
  | _ => false

/-- The `float64` 2.5, that is `1.25 * 2^1`. -/
def Float64.twoAndAHalf : Float64 :=
  ⟨false, ⟨1024, by decide⟩, ⟨1125899906842624, by decide⟩⟩

/-- The `float64` 3, that is `1.5 * 2^1`. -/
def Float64.three : Float64 :=
  ⟨false, ⟨1024, by decide⟩, ⟨2251799813685248, by decide⟩⟩

/-- The `float64` 1, that is `1.0 * 2^0`. -/
def Float64.one : Float64 :=
  ⟨false, ⟨1023, by decide⟩, ⟨0, by decide⟩⟩

/-- A sample naming of the kinds, for statements about one concrete call. -/
def kindNames : TypeNames
  | .Integer _ => "INTEGER"
  | .Float _ => "FLOAT"
  | .Boolean _ => "BOOLEAN"
  | .String _ => "STRING"
  | .Array _ => "ARRAY"
  | .Set _ => "SET"
  | .Error _ => "ERROR"
  | .Nil => "NIL"
  | .Other _ => "OTHER"

/-- A sample of Go's `math` package, for statements about calls that fail before any
library function is reached. -/
def noMath : GoMath :=
  { Sqrt := id, Ceil := id, Floor := id, Sin := id, Cos := id, Tan := id,
    Mod := fun x _ => x, Log := id, Log10 := id, Log2 := id, Pow := fun x _ => x,
    Pow10 := fun _ => Float64.zero, Round := id, toInt := fun _ => 0 }

/-- A quiet NaN, the bit pattern of Go's `math.NaN()`. -/
def Float64.nan : Float64 :=
  ⟨false, ⟨2047, by decide⟩, ⟨2251799813685249, by decide⟩⟩

/-- Negative zero. -/
def Float64.negZero : Float64 :=
  ⟨true, ⟨0, by decide⟩, ⟨0, by decide⟩⟩

/-- Go's `x == y` on `float64`: false when either side is NaN; the two zeros are equal. -/
def Float64.eq (x y : Float64) : Bool := !x.isNaN && !y.isNaN && decide (x.key = y.key)

/-! ## `examples/go/struct/main.go`

The counters are Go `int`s, 64 bits wide on a 64-bit platform: `++` is an addition that
wraps (`wrapInt64`). An `error` is the text of its message, `none` for nil. -/

/-- The struct `Service`. -/
structure Service where
  name : String
  running : Bool
  startCount : Int
  stopCount : Int
deriving DecidableEq

namespace Service

/-- The value `&Service{}` that `main` builds: every field at its zero value. -/
def zero : Service := ⟨"", false, 0, 0⟩

/-- The method `Start`: the service after the call, and the error returned. -/
def Start (s : Service) : Service × Option String :=
  if s.running then (s, some ("service " ++ s.name ++ " already running"))
  else ({ s with running := true, startCount := wrapInt64 (s.startCount + 1) }, none)

/-- The method `Stop`: the service after the call, and the error returned. -/
def Stop (s : Service) : Service × Option String :=
  if !s.running then (s, some ("service " ++ s.name ++ " not running"))
  else ({ s with running := false, stopCount := wrapInt64 (s.stopCount + 1) }, none)

/-- The method `SetName`. -/
def SetName (s : Service) (name : String) : Service := { s with name := name }

/-- The method `GetName`. -/
def GetName (s : Service) : String := s.name

/-- The method `PrintState`: the line written to standard output (`%t` prints a bool
as `true` or `false`). -/
def PrintState (s : Service) : String :=
  "printing state... name: " ++ s.name ++ " running " ++
    (if s.running then "true" else "false") ++ "\n"

/-- The method `GetMetrics`: the values under `running`, `start_count`, `stop_count`. -/
def GetMetrics (s : Service) : Bool × Int × Int := (s.running, s.startCount, s.stopCount)

end Service

/-- A call of one of the methods of `Service`. -/
inductive Call where
  | Start
  | Stop
  | SetName (name : String)
  | GetName
  | PrintState
  | GetMetrics

/-- The service after a call; the three reading methods assign no field. -/
def Service.step (s : Service) : Call → Service
  | .Start => s.Start.1
  | .Stop => s.Stop.1
  | .SetName name => s.SetName name
  | .GetName => s
  | .PrintState => s
  | .GetMetrics => s

/-- The service after a sequence of calls, the first call first. -/
def Service.run (s : Service) (calls : List Call) : Service := calls.foldl Service.step s

/-- The invariant of the counters in Go's arithmetic: both are `int` values and their
wrapping difference is `1` while running and `0` otherwise. -/
def Service.Balanced (s : Service) : Prop :=
  isInt64 s.startCount ∧ isInt64 s.stopCount ∧
    wrapInt64 (s.startCount - s.stopCount) = if s.running then 1 else 0

/-- The invariant of the counters before any wrap: after at most `n` calls both lie in
`[0, n]` and their difference is `1` while running and `0` otherwise. -/
def Service.Counted (s : Service) (n : Nat) : Prop :=
  0 ≤ s.startCount ∧ s.startCount ≤ n ∧ 0 ≤ s.stopCount ∧ s.stopCount ≤ n ∧
    s.startCount - s.stopCount = if s.running then 1 else 0

/-! ## `modules/gha/gha.go`

* A Go `any` value reaches the code only through `fmt.Sprint`: `GoAny` holds that text.
* A `map[string]any` is the list of its entries in the order `range` visits them.
* An `io.Writer` is a state with a `Write` that returns the next state and the error.
* The environment is `LookupEnv`, a partial function from names to values.
* The random source is the sequence of values `rand.Intn(36)` returns. -/

/-- A Go value of type `any`, known by the text `fmt.Sprint` prints for it. -/
structure GoAny where
  Sprint : String
deriving DecidableEq

/-- The entries of a `map[string]any`, in the order `range` visits them. -/
abbrev GoMap := List (String × GoAny)

/-- The assignment `m[k] = v` on a map: the entry of `k` is replaced, or added. -/
def mapSet (m : GoMap) (k : String) (v : GoAny) : GoMap :=
  if m.any (fun e => e.1 == k) then m.map (fun e => if e.1 = k then (k, v) else e)
  else m ++ [(k, v)]

/-- The methods of package `object` (not among the sources) that `printableValue` and
`asCommandProps` call: `Interface()` (`none` for nil), `String()` for the objects that
are a `fmt.Stringer`, and `Inspect()`. -/
structure ObjectMethods where
  Interface : Object → Option GoAny
  Stringer : Object → Option String
  Inspect : Object → String

/-- An `*object.Map`, through the two methods `asCommandProps` calls. -/
structure ObjectMap where
  StringKeys : List String
  Get : String → Object

/-- An `io.Writer` over states `σ`: `Write` gives the next state and the error text
(`none` for a nil error). -/
structure Writer (σ : Type) where
  Write : σ → String → σ × Option String

/-- Modelled from the spec: `arg.Require` of package `internal/arg`, not among the
sources; the spec's `checkArity(functionName, expected, actualCount)`, which fails with
an error value on a count mismatch. The text of the message is the parameter `arityText`. -/
def Require (arityText : String → Int → Nat → String) (funcName : String) (count : Int)
    (args : List Object) : Option Object :=
  if (args.length : Int) ≠ count then some (.Error (arityText funcName count args.length))
  else none

/-- The builtin `IsDebug`; `LookupEnv` is the environment of the default OS. -/
def IsDebug (arityText : String → Int → Nat → String) (LookupEnv : String → Option String)
    (args : List Object) : Object :=
  match Require arityText "gha.is_debug" 0 args with
  | some err => err
  | none =>
    match LookupEnv "RUNNER_DEBUG" with
    | none => .Boolean false
    | some env => if env ≠ "1" then .Boolean false else .Boolean true

/-- The function `printableValue`. -/
def printableValue (o : ObjectMethods) (obj : Object) : GoAny :=
  match o.Interface obj with
  | some iface => iface
  | none =>
    match o.Stringer obj with
    | some s => ⟨s⟩
    | none => ⟨o.Inspect obj⟩

/-- The call `strings.TrimSuffix(value, "\n")`. -/
def trimSuffixNewline (value : List Char) : List Char :=
  if value.getLast? = some '\n' then value.dropLast else value

/-- The replacer `workflowCommandReplacer`: at each position, from left to right, the
first of the old strings `\r\n`, `\r`, `\n`, `::` that starts there is replaced and the
scan goes on after it; any other character is copied. -/
def workflowCommandReplacer : List Char → List Char
  | [] => []
  | '\r' :: '\n' :: rest => '%' :: '0' :: 'A' :: workflowCommandReplacer rest
  | '\r' :: rest => '%' :: '0' :: 'A' :: workflowCommandReplacer rest
  | '\n' :: rest => '%' :: '0' :: 'A' :: workflowCommandReplacer rest
  | ':' :: ':' :: rest =>
    '%' :: '3' :: 'A' :: '%' :: '3' :: 'A' :: workflowCommandReplacer rest
  | c :: rest => c :: workflowCommandReplacer rest

/-- The function `sanitizeCommandValue`. -/
def sanitizeCommandValue (value : String) : String :=
  ⟨workflowCommandReplacer (trimSuffixNewline value.data)⟩

/-- The function `commandPropKey`. -/
def commandPropKey (key : String) : String × Bool :=
  if key = "title" ∨ key = "file" ∨ key = "line" then (key, true)
  else if key = "column" then ("col", true)
  else if key = "end_line" then ("endLine", true)
  else if key = "end_column" then ("endColumn", true)
  else ("", false)

/-- The function `asCommandProps`: the loop over `obj.StringKeys()`. -/
def asCommandProps (o : ObjectMethods) (obj : ObjectMap) : GoMap :=
  obj.StringKeys.foldl
    (fun props key =>
      match commandPropKey key with
      | (_, false) => props
      | (cmdKey, true) => mapSet props cmdKey (printableValue o (obj.Get key)))
    []

/-- The function `stringifyCommandProps`. -/
def stringifyCommandProps (props : GoMap) : String :=
  props.foldl
    (fun sb e =>
      (if sb.length = 0 then sb ++ " " else sb ++ ",") ++ e.1 ++ "=" ++
        sanitizeCommandValue e.2.Sprint)
    ""

/-- The text `runWorkflowCommand` formats for the writer. -/
def workflowCommandText (cmd : String) (value : GoAny) (props : GoMap) : String :=
  "::" ++ cmd ++ stringifyCommandProps props ++ "::" ++ sanitizeCommandValue value.Sprint ++ "\n"

/-- The function `runWorkflowCommand`: the writer after the call and the object
returned. `fmt.Fprintf` formats the whole text and hands it to `w.Write` once.
`object.Errorf` (package `object`, not among the sources) is the spec's
`fail(category, format, args...)`: its message is the format with `%v` replaced by the
text of the error. -/
def runWorkflowCommand {σ : Type} (w : Writer σ) (st : σ) (cmd : String) (value : GoAny)
    (props : GoMap) : σ × Object :=
  match w.Write st (workflowCommandText cmd value props) with
  | (st1, some err) => (st1, .Error ("io error: " ++ err))
  | (st1, none) => (st1, .Nil)

/-- The constant `charset` of `workflowFileKeyValueEOF`. -/
def charset : String := "ABCDEFGHIJKLMNOPQRSTUVWXYZ0123456789"

/-- The loop of `workflowFileKeyValueEOF`, with `n` values drawn so far: `none` when
the fuel runs out before the loop ends. -/
def eofLoop (rand : Nat → Fin 36) (key value : String) :
    Nat → Nat → List Char → Option (List Char)
  | 0, _, _ => none
  | fuel + 1, n, eof =>
    if eof <:+: key.data ∨ eof <:+: value.data then
      eofLoop rand key value fuel (n + 1) (eof ++ [charset.data.getD (rand n).val 'A'])
    else some eof

/-- The function `workflowFileKeyValueEOF`; the delimiter grows by one character at each
turn, so more turns than the longer of `key` and `value` has characters cannot happen. -/
def workflowFileKeyValueEOF (rand : Nat → Fin 36) (key value : String) : Option String :=
  (eofLoop rand key value (max key.length value.length + 1) 0 "EOF".data).map String.mk

/-- The function `workflowFileKeyValue`. -/
def workflowFileKeyValue (rand : Nat → Fin 36) (key value : GoAny) : Option String :=
  (workflowFileKeyValueEOF rand key.Sprint value.Sprint).map fun eof =>
    key.Sprint ++ "<<" ++ eof ++ "\n" ++ value.Sprint ++ "\n" ++ eof

/-- A writer that records every text handed to it and fails as `fails` tells. -/
def recorder (fails : String → Option String) : Writer (List String) :=
  { Write := fun log text => (log ++ [text], fails text) }

/-- A sample of the object methods, for statements about one concrete call: no object
has an `Interface()` value, a String prints as its text and the others as `<object>`. -/
def sampleMethods : ObjectMethods :=
  { Interface := fun _ => none,
    Stringer := fun obj => match obj with
      | .String s => some s
      | _ => none,
    Inspect := fun _ => "<object>" }

/-- A sample arity message for `Require`. -/
def sampleArityText (funcName : String) (_count : Int) (nArgs : Nat) : String :=
  "arity error: " ++ funcName ++ " (" ++ toString nArgs ++ " given)"

/-- The function names the seventeen builtins of `math.go` pass to `RequireArgs`. -/
def builtinNames : List String :=
  ["math.abs", "math.sqrt", "math.max", "math.min", "math.ceil", "math.floor", "math.sin",
    "math.cos", "math.tan", "math.mod", "math.log", "math.log10", "math.log2", "math.pow",
    "math.pow10", "math.is_inf", "math.round"]

/-! ## Lemmas on the arity check and on indexing -/

theorem RequireArgs_eq_none_iff (funcName : String) (count : Int) (args : List Object) :
    RequireArgs funcName count args = none ↔ (args.length : Int) = count := by
  unfold RequireArgs
  by_cases h : (args.length : Int) = count <;> simp [h]

theorem index_ok_of_lt (args : List Object) (i : Nat) (h : i < args.length) :
    ∃ arg, index args i = .ok arg ∧ args[i]? = some arg := by
  refine ⟨args[i], ?_, ?_⟩
  · unfold index; simp [h]
  · simp [h]

theorem index_ok_of_RequireArgs {funcName : String} (count : Nat) {args : List Object}
    (h : RequireArgs funcName (count : Int) args = none) (i : Nat) (hi : i < count) :
    ∃ arg, index args i = .ok arg ∧ args[i]? = some arg := by
  have hlen : args.length = count := by
    have := (RequireArgs_eq_none_iff funcName count args).1 h
    exact_mod_cast this
  exact index_ok_of_lt args i (hlen ▸ hi)

theorem AsFloat_cases (typeName : TypeNames) (obj : Object) :
    (∃ x, AsFloat typeName obj = (x, none)) ∨ (∃ x err, AsFloat typeName obj = (x, some err)) := by
  cases obj <;> simp [AsFloat]

theorem Abs_returns (typeName : TypeNames) (args : List Object) :
    ∃ v, Abs typeName args = .ok v := by
  unfold Abs
  cases h : RequireArgs "math.abs" 1 args with
  | some e => exact ⟨e, rfl⟩
  | none =>
    obtain ⟨a, ha, -⟩ := index_ok_of_RequireArgs 1 h 0 (by decide)
    rw [ha]
    cases a <;> exact ⟨_, rfl⟩

theorem Sqrt_returns (m : GoMath) (typeName : TypeNames) (args : List Object) :
    ∃ v, Sqrt m typeName args = .ok v := by
  unfold Sqrt
  cases h : RequireArgs "math.sqrt" 1 args with
  | some e => exact ⟨e, rfl⟩
  | none =>
    obtain ⟨a, ha, -⟩ := index_ok_of_RequireArgs 1 h 0 (by decide)
    rw [ha]
    cases a <;> exact ⟨_, rfl⟩

theorem Max_returns (typeName : TypeNames) (args : List Object) :
    ∃ v, Max typeName args = .ok v := by
  unfold Max
  cases h : RequireArgs "math.max" 1 args with
  | some e => exact ⟨e, rfl⟩
  | none =>
    obtain ⟨a, ha, -⟩ := index_ok_of_RequireArgs 1 h 0 (by decide)
    simp only [ha]
    repeat' split
    all_goals exact ⟨_, rfl⟩

theorem Min_returns (typeName : TypeNames) (args : List Object) :
    ∃ v, Min typeName args = .ok v := by
  unfold Min
  cases h : RequireArgs "math.min" 1 args with
  | some e => exact ⟨e, rfl⟩
  | none =>
    obtain ⟨a, ha, -⟩ := index_ok_of_RequireArgs 1 h 0 (by decide)
    simp only [ha]
    repeat' split
    all_goals exact ⟨_, rfl⟩

theorem Ceil_returns (m : GoMath) (typeName : TypeNames) (args : List Object) :
    ∃ v, Ceil m typeName args = .ok v := by
  unfold Ceil
  cases h : RequireArgs "math.ceil" 1 args with
  | some e => exact ⟨e, rfl⟩
  | none =>
    obtain ⟨a, ha, -⟩ := index_ok_of_RequireArgs 1 h 0 (by decide)
    rw [ha]
    cases a <;> exact ⟨_, rfl⟩

theorem Floor_returns (m : GoMath) (typeName : TypeNames) (args : List Object) :
    ∃ v, Floor m typeName args = .ok v := by
  unfold Floor
  cases h : RequireArgs "math.floor" 1 args with
  | some e => exact ⟨e, rfl⟩
  | none =>
    obtain ⟨a, ha, -⟩ := index_ok_of_RequireArgs 1 h 0 (by decide)
    rw [ha]
    cases a <;> exact ⟨_, rfl⟩

theorem Sin_returns (m : GoMath) (typeName : TypeNames) (args : List Object) :
    ∃ v, Sin m typeName args = .ok v := by
  unfold Sin
  cases h : RequireArgs "math.sin" 1 args with
  | some e => exact ⟨e, rfl⟩
  | none =>
    obtain ⟨a, ha, -⟩ := index_ok_of_RequireArgs 1 h 0 (by decide)
    rw [ha]
    cases a <;> exact ⟨_, rfl⟩

theorem Cos_returns (m : GoMath) (typeName : TypeNames) (args : List Object) :
    ∃ v, Cos m typeName args = .ok v := by
  unfold Cos
  cases h : RequireArgs "math.cos" 1 args with
  | some e => exact ⟨e, rfl⟩
  | none =>
    obtain ⟨a, ha, -⟩ := index_ok_of_RequireArgs 1 h 0 (by decide)
    rw [ha]
    cases a <;> exact ⟨_, rfl⟩

theorem Tan_returns (m : GoMath) (typeName : TypeNames) (args : List Object) :
    ∃ v, Tan m typeName args = .ok v := by
  unfold Tan
  cases h : RequireArgs "math.tan" 1 args with
  | some e => exact ⟨e, rfl⟩
  | none =>
    obtain ⟨a, ha, -⟩ := index_ok_of_RequireArgs 1 h 0 (by decide)
    simp only [ha]
    rcases AsFloat_cases typeName a with ⟨x, hx⟩ | ⟨x, e, hx⟩ <;> rw [hx] <;> exact ⟨_, rfl⟩

theorem Mod_returns (m : GoMath) (typeName : TypeNames) (args : List Object) :
    ∃ v, Mod m typeName args = .ok v := by
  unfold Mod
  cases h : RequireArgs "math.mod" 2 args with
  | some e => exact ⟨e, rfl⟩
  | none =>
    obtain ⟨a, ha, -⟩ := index_ok_of_RequireArgs 2 h 0 (by decide)
    obtain ⟨b, hb, -⟩ := index_ok_of_RequireArgs 2 h 1 (by decide)
    simp only [ha]
    rcases AsFloat_cases typeName a with ⟨x, hx⟩ | ⟨x, e, hx⟩ <;> rw [hx]
    · simp only [hb]
      rcases AsFloat_cases typeName b with ⟨y, hy⟩ | ⟨y, e, hy⟩ <;> rw [hy] <;> exact ⟨_, rfl⟩
    · exact ⟨_, rfl⟩

theorem Log_returns (m : GoMath) (typeName : TypeNames) (args : List Object) :
    ∃ v, Log m typeName args = .ok v := by
  unfold Log
  cases h : RequireArgs "math.log" 1 args with
  | some e => exact ⟨e, rfl⟩
  | none =>
    obtain ⟨a, ha, -⟩ := index_ok_of_RequireArgs 1 h 0 (by decide)
    simp only [ha]
    rcases AsFloat_cases typeName a with ⟨x, hx⟩ | ⟨x, e, hx⟩ <;> rw [hx] <;> exact ⟨_, rfl⟩

theorem Log10_returns (m : GoMath) (typeName : TypeNames) (args : List Object) :
    ∃ v, Log10 m typeName args = .ok v := by
  unfold Log10
  cases h : RequireArgs "math.log10" 1 args with
  | some e => exact ⟨e, rfl⟩
  | none =>
    obtain ⟨a, ha, -⟩ := index_ok_of_RequireArgs 1 h 0 (by decide)
    simp only [ha]
    rcases AsFloat_cases typeName a with ⟨x, hx⟩ | ⟨x, e, hx⟩ <;> rw [hx] <;> exact ⟨_, rfl⟩

theorem Log2_returns (m : GoMath) (typeName : TypeNames) (args : List Object) :
    ∃ v, Log2 m typeName args = .ok v := by
  unfold Log2
  cases h : RequireArgs "math.log2" 1 args with
  | some e => exact ⟨e, rfl⟩
  | none =>
    obtain ⟨a, ha, -⟩ := index_ok_of_RequireArgs 1 h 0 (by decide)
    simp only [ha]
    rcases AsFloat_cases typeName a with ⟨x, hx⟩ | ⟨x, e, hx⟩ <;> rw [hx] <;> exact ⟨_, rfl⟩

theorem Pow_returns (m : GoMath) (typeName : TypeNames) (args : List Object) :
    ∃ v, Pow m typeName args = .ok v := by
  unfold Pow
  cases h : RequireArgs "math.pow" 2 args with
  | some e => exact ⟨e, rfl⟩
  | none =>
    obtain ⟨a, ha, -⟩ := index_ok_of_RequireArgs 2 h 0 (by decide)
    obtain ⟨b, hb, -⟩ := index_ok_of_RequireArgs 2 h 1 (by decide)
    simp only [ha]
    rcases AsFloat_cases typeName a with ⟨x, hx⟩ | ⟨x, e, hx⟩ <;> rw [hx]
    · simp only [hb]
      rcases AsFloat_cases typeName b with ⟨y, hy⟩ | ⟨y, e, hy⟩ <;> rw [hy] <;> exact ⟨_, rfl⟩
    · exact ⟨_, rfl⟩

theorem Pow10_returns (m : GoMath) (typeName : TypeNames) (args : List Object) :
    ∃ v, Pow10 m typeName args = .ok v := by
  unfold Pow10
  cases h : RequireArgs "math.pow10" 1 args with
  | some e => exact ⟨e, rfl⟩
  | none =>
    obtain ⟨a, ha, -⟩ := index_ok_of_RequireArgs 1 h 0 (by decide)
    simp only [ha]
    rcases AsFloat_cases typeName a with ⟨x, hx⟩ | ⟨x, e, hx⟩ <;> rw [hx] <;> exact ⟨_, rfl⟩

theorem IsInf_returns (typeName : TypeNames) (args : List Object) :
    ∃ v, IsInf typeName args = .ok v := by
  unfold IsInf
  cases h : RequireArgs "math.is_inf" 1 args with
  | some e => exact ⟨e, rfl⟩
  | none =>
    obtain ⟨a, ha, -⟩ := index_ok_of_RequireArgs 1 h 0 (by decide)
    simp only [ha]
    rcases AsFloat_cases typeName a with ⟨x, hx⟩ | ⟨x, e, hx⟩ <;> rw [hx] <;> exact ⟨_, rfl⟩

theorem Round_returns (m : GoMath) (typeName : TypeNames) (args : List Object) :
    ∃ v, Round m typeName args = .ok v := by
  unfold Round
  cases h : RequireArgs "math.round" 1 args with
  | some e => exact ⟨e, rfl⟩
  | none =>
    obtain ⟨a, ha, -⟩ := index_ok_of_RequireArgs 1 h 0 (by decide)
    simp only [ha]
    rcases AsFloat_cases typeName a with ⟨x, hx⟩ | ⟨x, e, hx⟩ <;> rw [hx] <;> exact ⟨_, rfl⟩

/-! ## The fuel of the format loop is enough -/

theorem skipFlags_length (l : List Char) : (skipFlags l).length ≤ l.length := by
  induction l with
  | nil => simp [skipFlags]
  | cons c cs ih =>
    simp only [skipFlags]
    split
    · exact le_trans ih (Nat.le_succ _)
    · exact le_refl _

theorem parsenum_length (num : Nat) (isnum : Bool) (l : List Char) :
    (((parsenum num isnum l).2.2).getD []).length ≤ l.length := by
  induction l generalizing num isnum with
  | nil => simp [parsenum]
  | cons c cs ih =>
    simp only [parsenum]
    split
    · split
      · simp
      · exact le_trans (ih _ _) (Nat.le_succ _)
    · simp

theorem argNumber_length (good : Bool) (l : List Char) :
    (argNumber good l).2.1.length ≤ l.length := by
  unfold argNumber
  split
  · simp only [List.length_drop]; exact Nat.sub_le _ _
  · exact le_refl _

theorem widthPart_length (good after : Bool) (l : List Char) :
    (widthPart good after l).2.2.2.length ≤ l.length := by
  unfold widthPart
  split
  · simp
  · exact parsenum_length 0 false l

theorem precPart_length (good after : Bool) (l : List Char) :
    (precPart good after l).2.2.2.length ≤ l.length := by
  unfold precPart
  split
  · rename_i rest
    have h1 := argNumber_length (good && !after) rest
    split
    · rename_i g r1 a heq
      rw [heq] at h1
      simp only [List.length_cons] at h1 ⊢
      omega
    · rename_i g r1 a _ heq
      rw [heq] at h1
      have h2 := parsenum_length 0 false r1
      simp only [List.length_cons] at h1 ⊢
      omega
  · exact le_refl _

theorem directive_length (l : List Char) : (directive l).2.length ≤ l.length := by
  unfold directive
  have h0 := skipFlags_length l
  have h1 := argNumber_length true (skipFlags l)
  rcases e1 : argNumber true (skipFlags l) with ⟨good1, rest1, after1⟩
  rw [e1] at h1
  have h2 := widthPart_length good1 after1 rest1
  rcases e2 : widthPart good1 after1 rest1 with ⟨out2, good2, after2, rest2⟩
  rw [e2] at h2
  have h3 := precPart_length good2 after2 rest2
  rcases e3 : precPart good2 after2 rest2 with ⟨out3, good3, after3, rest3⟩
  rw [e3] at h3
  have h4 : (if after3 = true then (good3, rest3, after3)
      else argNumber good3 rest3).2.1.length ≤ rest3.length := by
    split
    · exact le_refl _
    · exact argNumber_length good3 rest3
  rcases e4 : (if after3 = true then (good3, rest3, after3) else argNumber good3 rest3)
    with ⟨good4, rest4, after4⟩
  rw [e4] at h4
  simp only at h1 h2 h3 h4
  simp only [e2, e3, e4]
  cases rest4 with
  | nil => simp
  | cons verb rest5 =>
    simp only [List.length_cons] at h4
    simp only
    split_ifs <;> simp only <;> omega

/-- More fuel than the length of the format changes nothing: the loop has finished. -/
theorem doPrintf_fuel (n : Nat) : ∀ (s : List Char) (f1 f2 : Nat),
    s.length ≤ n → n ≤ f1 → n ≤ f2 → doPrintf f1 s = doPrintf f2 s := by
  induction n with
  | zero =>
    intro s f1 f2 hs _ _
    have : s = [] := List.length_eq_zero.1 (Nat.le_zero.1 hs)
    subst this
    cases f1 <;> cases f2 <;> rfl
  | succ n ih =>
    intro s f1 f2 hs h1 h2
    cases s with
    | nil => cases f1 <;> cases f2 <;> rfl
    | cons c cs =>
      obtain ⟨g1, rfl⟩ : ∃ g, f1 = g + 1 := ⟨f1 - 1, by omega⟩
      obtain ⟨g2, rfl⟩ : ∃ g, f2 = g + 1 := ⟨f2 - 1, by omega⟩
      have hcs : cs.length ≤ n := by simpa using hs
      simp only [doPrintf]
      split
      · rw [ih (directive cs).2 g1 g2 (le_trans (directive_length cs) hcs)
          (by omega) (by omega)]
      · rw [ih cs g1 g2 hcs (by omega) (by omega)]

/-- `Sprintf0` is the format loop run to its end, whatever fuel at least the length. -/
theorem Sprintf0_eq_doPrintf (format : String) (fuel : Nat) (h : format.length ≤ fuel) :
    Sprintf0 format = ⟨doPrintf fuel format.data⟩ := by
  unfold Sprintf0
  rw [doPrintf_fuel format.length format.data format.length fuel (le_refl _) (le_refl _) h]

/-! ## Lemmas on formatting -/

theorem doPrintf_of_not_mem (fuel : Nat) (s : List Char) (hlen : s.length ≤ fuel)
    (hs : '%' ∉ s) : doPrintf fuel s = s := by
  induction s generalizing fuel with
  | nil => cases fuel <;> rfl
  | cons c cs ih =>
    cases fuel with
    | zero => simp at hlen
    | succ fuel =>
      have hc : c ≠ '%' := fun h => hs (by simp [h])
      have hcs : '%' ∉ cs := fun h => hs (List.mem_cons_of_mem _ h)
      simp only [doPrintf, if_neg hc]
      rw [ih fuel (by simpa using hlen) hcs]

theorem Sprintf0_of_not_mem (format : String) (h : '%' ∉ format.data) :
    Sprintf0 format = format := by
  unfold Sprintf0
  have hfix : doPrintf format.length format.data = format.data :=
    doPrintf_of_not_mem _ _ (le_of_eq rfl) h
  rw [hfix]

theorem digitChar_ne_percent (d : Nat) (hd : d < 10) : Nat.digitChar d ≠ '%' := by
  interval_cases d <;> decide

theorem toDigitsCore_no_percent (fuel n : Nat) (acc : List Char) (h : '%' ∉ acc) :
    '%' ∉ Nat.toDigitsCore 10 fuel n acc := by
  induction fuel generalizing n acc with
  | zero => simpa [Nat.toDigitsCore] using h
  | succ fuel ih =>
    have hacc : '%' ∉ Nat.digitChar (n % 10) :: acc := by
      intro hmem
      rcases List.mem_cons.1 hmem with h1 | h1
      · exact digitChar_ne_percent _ (Nat.mod_lt _ (by decide)) h1.symm
      · exact h h1
    simp only [Nat.toDigitsCore]
    split
    · exact hacc
    · exact ih _ _ hacc

theorem toString_no_percent (n : Nat) : '%' ∉ (toString n).data := by
  show '%' ∉ (Nat.repr n).data
  unfold Nat.repr Nat.toDigits
  exact toDigitsCore_no_percent _ _ _ (by simp)

theorem arityMessage_no_percent (funcName : String) (nArgs : Nat) (h : '%' ∉ funcName.data) :
    '%' ∉ (arityMessage funcName nArgs).data := by
  have hn := toString_no_percent nArgs
  unfold arityMessage
  simp only [String.data_append, List.mem_append, not_or]
  refine ⟨⟨⟨⟨by decide, h⟩, by decide⟩, hn⟩, by decide⟩

/-- With a function name free of `%`, a count mismatch yields exactly the built text. -/
theorem RequireArgs_message (funcName : String) (count : Int) (args : List Object)
    (hname : '%' ∉ funcName.data) (hcount : (args.length : Int) ≠ count) :
    RequireArgs funcName count args = some (.Error (arityMessage funcName args.length)) := by
  unfold RequireArgs NewError
  simp only [hcount, ne_eq, not_false_eq_true, if_true]
  rw [show ("type error: " ++ funcName ++ "() takes exactly one argument (" ++
      toString args.length ++ " given)") = arityMessage funcName args.length from rfl]
  rw [Sprintf0_of_not_mem _ (arityMessage_no_percent funcName args.length hname)]

/-- The arity check in full for a function name free of `%`: no error exactly when the
count matches, otherwise the message holds the name and the number of arguments given. -/
theorem RequireArgs_spec (funcName : String) (count : Int) (args : List Object)
    (hname : '%' ∉ funcName.data) :
    (RequireArgs funcName count args = none ↔ (args.length : Int) = count) ∧
    ((args.length : Int) ≠ count →
      ∃ msg, RequireArgs funcName count args = some (.Error msg) ∧
        funcName.data <:+: msg.data ∧ (toString args.length).data <:+: msg.data) := by
  refine ⟨RequireArgs_eq_none_iff funcName count args, fun h => ?_⟩
  refine ⟨_, RequireArgs_message funcName count args hname h, ?_, ?_⟩
  · refine ⟨"type error: ".data, ("() takes exactly one argument (" ++
      toString args.length ++ " given)").data, ?_⟩
    simp [arityMessage, String.data_append]
  · refine ⟨("type error: " ++ funcName ++ "() takes exactly one argument (").data,
      " given)".data, ?_⟩
    simp [arityMessage, String.data_append]

/-- No name the module passes to `RequireArgs` holds a `%`. -/
theorem builtinNames_no_percent (name : String) (h : name ∈ builtinNames) :
    '%' ∉ name.data := by
  have hall : ∀ n ∈ builtinNames, '%' ∉ n.data := by decide
  exact hall name h

/-- A name that holds a directive, which no call in the module passes, is formatted by
`NewError` with the rest of the message. -/
theorem RequireArgs_name_with_directive :
    RequireArgs "%d" 1 [] =
      some (.Error "type error: %!d(MISSING)() takes exactly one argument (0 given)") :=
  by rfl

/-! ## `Abs` on one argument -/

theorem Abs_Integer (typeName : TypeNames) (v : Int) :
    Abs typeName [.Integer v] = .ok (.Integer (if v < 0 then wrapInt64 (v * -1) else v)) := by
  rfl

theorem Abs_Float (typeName : TypeNames) (v : Float64) :
    Abs typeName [.Float v] =
      .ok (.Float (if v.lt Float64.zero then v.mulNegOne else v)) := by
  rfl

/-- Above the minimum `int64`, `Abs` returns the Integer `|i|`, which is not negative. -/
theorem Abs_Integer_above_min (typeName : TypeNames) (i : Int) (hi : isInt64 i)
    (hmin : i ≠ -9223372036854775808) :
    Abs typeName [.Integer i] = .ok (.Integer |i|) ∧ 0 ≤ |i| ∧ isInt64 |i| := by
  unfold isInt64 at *
  rw [Abs_Integer]
  have habs : (if i < 0 then wrapInt64 (i * -1) else i) = |i| := by
    split
    · rename_i hneg
      rw [abs_of_neg hneg]
      unfold wrapInt64
      omega
    · rename_i hpos
      rw [abs_of_nonneg (not_lt.1 hpos)]
  rw [habs]
  refine ⟨rfl, abs_nonneg i, ?_, ?_⟩
  · have := abs_nonneg i
    omega
  · rcases abs_cases i with ⟨h, _⟩ | ⟨h, _⟩ <;> omega

/-! ## The loops of `Max` and `Min` against the two-track reduction -/

theorem foldl_track_true {α : Type} (beats : α → α → Bool) (l : List α) (b : α) :
    l.foldl (track beats) (true, b) =
      (true, l.foldl (fun best y => if beats y best then y else best) b) := by
  induction l generalizing b with
  | nil => rfl
  | cons y l ih =>
    simp only [List.foldl_cons, track, Bool.not_true, Bool.false_or]
    by_cases h : beats y b = true
    · simp only [h, if_true]; exact ih y
    · simp only [h]; exact ih b

theorem foldl_track_false {α : Type} (beats : α → α → Bool) (l : List α) (d : α) :
    l.foldl (track beats) (false, d) =
      ((bestOf beats l).isSome, (bestOf beats l).getD d) := by
  cases l with
  | nil => rfl
  | cons x l =>
    simp only [List.foldl_cons, track, Bool.not_false, Bool.true_or, if_true, bestOf,
      Option.isSome_some, Option.getD_some]
    exact foldl_track_true beats l x

theorem maxLoop_numeric (typeName : TypeNames) (xs : List Object) (st : Best)
    (h : ∀ x ∈ xs, isNumeric x = true) :
    maxLoop typeName xs st = .ok
      { flt := ((floatsOf xs).foldl (track maxBeatsFlt) (st.hasFlt, st.flt)).2
        int := ((integersOf xs).foldl (track maxBeatsInt) (st.hasInt, st.int)).2
        hasFlt := ((floatsOf xs).foldl (track maxBeatsFlt) (st.hasFlt, st.flt)).1
        hasInt := ((integersOf xs).foldl (track maxBeatsInt) (st.hasInt, st.int)).1 } := by
  induction xs generalizing st with
  | nil => rfl
  | cons x xs ih =>
    have hx := h x (List.mem_cons_self _ _)
    have hxs : ∀ y ∈ xs, isNumeric y = true := fun y hy => h y (List.mem_cons_of_mem _ hy)
    cases x with
    | Integer v =>
      simp only [maxLoop, floatsOf, integersOf, List.foldl_cons]
      rw [ih _ hxs]
      by_cases hc : (!st.hasInt || decide (st.int < v)) = true
      · simp [track, maxBeatsInt, hc]
      · simp [track, maxBeatsInt, hc]
    | Float v =>
      simp only [maxLoop, floatsOf, integersOf, List.foldl_cons]
      rw [ih _ hxs]
      by_cases hc : (!st.hasFlt || st.flt.lt v) = true
      · simp [track, maxBeatsFlt, hc]
      · simp [track, maxBeatsFlt, hc]
    | _ => simp [isNumeric] at hx

theorem minLoop_numeric (typeName : TypeNames) (xs : List Object) (st : Best)
    (h : ∀ x ∈ xs, isNumeric x = true) :
    minLoop typeName xs st = .ok
      { flt := ((floatsOf xs).foldl (track minBeatsFlt) (st.hasFlt, st.flt)).2
        int := ((integersOf xs).foldl (track minBeatsInt) (st.hasInt, st.int)).2
        hasFlt := ((floatsOf xs).foldl (track minBeatsFlt) (st.hasFlt, st.flt)).1
        hasInt := ((integersOf xs).foldl (track minBeatsInt) (st.hasInt, st.int)).1 } := by
  induction xs generalizing st with
  | nil => rfl
  | cons x xs ih =>
    have hx := h x (List.mem_cons_self _ _)
    have hxs : ∀ y ∈ xs, isNumeric y = true := fun y hy => h y (List.mem_cons_of_mem _ hy)
    cases x with
    | Integer v =>
      simp only [minLoop, floatsOf, integersOf, List.foldl_cons]
      rw [ih _ hxs]
      by_cases hc : (!st.hasInt || decide (st.int > v)) = true
      · simp [track, minBeatsInt, hc]
      · simp [track, minBeatsInt, hc]
    | Float v =>
      simp only [minLoop, floatsOf, integersOf, List.foldl_cons]
      rw [ih _ hxs]
      by_cases hc : (!st.hasFlt || st.flt.gt v) = true
      · simp [track, minBeatsFlt, hc]
      · simp [track, minBeatsFlt, hc]
    | _ => simp [isNumeric] at hx

theorem RequireArgs_one (funcName : String) (arg : Object) :
    RequireArgs funcName 1 [arg] = none := by
  rw [RequireArgs_eq_none_iff]; rfl

/-- On a non-empty sequence of numbers `Max` returns the Float of the two-track maximum. -/
theorem Max_numeric (typeName : TypeNames) (arg : Object) (xs : List Object)
    (harg : elementsOf arg = some xs) (hne : xs ≠ [])
    (hnum : ∀ x ∈ xs, isNumeric x = true) :
    Max typeName [arg] = .ok (.Float (widenedBest maxBeatsInt maxBeatsFlt xs)) := by
  have hlen : ¬ xs.length = 0 := fun h => hne (List.length_eq_zero.1 h)
  unfold Max
  simp only [RequireArgs_one, index, List.getElem?_cons_zero, harg, hlen, if_false,
    maxLoop_numeric typeName xs {} hnum, foldl_track_false]
  unfold widenedBest
  cases hf : bestOf maxBeatsFlt (floatsOf xs) <;>
    cases hi : bestOf maxBeatsInt (integersOf xs) <;>
    simp [ToFloat, Float64.gt, maxBeatsFlt]
  rename_i f i
  by_cases hc : f.lt (Float64.ofInt64 i) = true <;> simp [hc]

/-- On a non-empty sequence of numbers `Min` returns the Float of the two-track minimum. -/
theorem Min_numeric (typeName : TypeNames) (arg : Object) (xs : List Object)
    (harg : elementsOf arg = some xs) (hne : xs ≠ [])
    (hnum : ∀ x ∈ xs, isNumeric x = true) :
    Min typeName [arg] = .ok (.Float (widenedBest minBeatsInt minBeatsFlt xs)) := by
  have hlen : ¬ xs.length = 0 := fun h => hne (List.length_eq_zero.1 h)
  unfold Min
  simp only [RequireArgs_one, index, List.getElem?_cons_zero, harg, hlen, if_false,
    minLoop_numeric typeName xs {} hnum, foldl_track_false]
  unfold widenedBest
  cases hf : bestOf minBeatsFlt (floatsOf xs) <;>
    cases hi : bestOf minBeatsInt (integersOf xs) <;>
    simp [ToFloat, Float64.gt, minBeatsFlt]
  rename_i f i
  by_cases hc : (Float64.ofInt64 i).lt f = true <;> simp [hc]

/-! ## What the best of a track is -/

theorem foldl_best_mem {α : Type} (beats : α → α → Bool) (l : List α) (b : α) :
    l.foldl (fun best y => if beats y best then y else best) b ∈ b :: l := by
  induction l generalizing b with
  | nil => simp
  | cons y l ih =>
    simp only [List.foldl_cons]
    by_cases h : beats y b = true
    · simp only [h, if_true]
      exact List.mem_cons_of_mem _ (ih y)
    · have hb : (if beats y b = true then y else b) = b := if_neg h
      rw [hb]
      rcases List.mem_cons.1 (ih b) with h1 | h1
      · rw [h1]; exact List.mem_cons_self _ _
      · exact List.mem_cons_of_mem _ (List.mem_cons_of_mem _ h1)

/-- The best of a track is one of its elements. -/
theorem bestOf_mem {α : Type} (beats : α → α → Bool) (l : List α) (b : α)
    (h : bestOf beats l = some b) : b ∈ l := by
  cases l with
  | nil => simp [bestOf] at h
  | cons x l =>
    simp only [bestOf, Option.some.injEq] at h
    rw [← h]
    exact foldl_best_mem beats l x

theorem bestOf_isSome {α : Type} (beats : α → α → Bool) (l : List α) (h : l ≠ []) :
    ∃ b, bestOf beats l = some b := by
  cases l with
  | nil => exact absurd rfl h
  | cons x l => exact ⟨_, rfl⟩

theorem foldl_maxInt_ge (l : List Int) (b : Int) :
    b ≤ l.foldl (fun best y => if maxBeatsInt y best then y else best) b ∧
    ∀ x ∈ l, x ≤ l.foldl (fun best y => if maxBeatsInt y best then y else best) b := by
  induction l generalizing b with
  | nil => simp
  | cons y l ih =>
    simp only [List.foldl_cons, List.mem_cons, forall_eq_or_imp]
    by_cases h : b < y
    · simp only [maxBeatsInt, h, decide_True, if_true]
      exact ⟨le_trans (le_of_lt h) (ih y).1, (ih y).1, (ih y).2⟩
    · simp only [maxBeatsInt, h, decide_False]
      exact ⟨(ih b).1, le_trans (not_lt.1 h) (ih b).1, (ih b).2⟩

theorem foldl_minInt_le (l : List Int) (b : Int) :
    l.foldl (fun best y => if minBeatsInt y best then y else best) b ≤ b ∧
    ∀ x ∈ l, l.foldl (fun best y => if minBeatsInt y best then y else best) b ≤ x := by
  induction l generalizing b with
  | nil => simp
  | cons y l ih =>
    simp only [List.foldl_cons, List.mem_cons, forall_eq_or_imp]
    by_cases h : b > y
    · simp only [minBeatsInt, h, decide_True, if_true]
      exact ⟨le_trans (ih y).1 (le_of_lt h), (ih y).1, (ih y).2⟩
    · simp only [minBeatsInt, h, decide_False]
      exact ⟨(ih b).1, le_trans (ih b).1 (not_lt.1 h), (ih b).2⟩

/-- The best Integer of a maximum is the greatest Integer of the track. -/
theorem bestOf_maxInt (l : List Int) (b : Int) (h : bestOf maxBeatsInt l = some b) :
    b ∈ l ∧ ∀ x ∈ l, x ≤ b := by
  refine ⟨bestOf_mem _ l b h, ?_⟩
  cases l with
  | nil => simp [bestOf] at h
  | cons x l =>
    simp only [bestOf, Option.some.injEq] at h
    rw [← h]
    intro z hz
    rcases List.mem_cons.1 hz with h1 | h1
    · rw [h1]; exact (foldl_maxInt_ge l x).1
    · exact (foldl_maxInt_ge l x).2 z h1

/-- The best Integer of a minimum is the least Integer of the track. -/
theorem bestOf_minInt (l : List Int) (b : Int) (h : bestOf minBeatsInt l = some b) :
    b ∈ l ∧ ∀ x ∈ l, b ≤ x := by
  refine ⟨bestOf_mem _ l b h, ?_⟩
  cases l with
  | nil => simp [bestOf] at h
  | cons x l =>
    simp only [bestOf, Option.some.injEq] at h
    rw [← h]
    intro z hz
    rcases List.mem_cons.1 hz with h1 | h1
    · rw [h1]; exact (foldl_minInt_le l x).1
    · exact (foldl_minInt_le l x).2 z h1

theorem mem_floatsOf (xs : List Object) (v : Float64) : v ∈ floatsOf xs ↔ .Float v ∈ xs := by
  induction xs with
  | nil => simp [floatsOf]
  | cons x xs ih => cases x <;> simp [floatsOf, ih]

theorem mem_integersOf (xs : List Object) (v : Int) :
    v ∈ integersOf xs ↔ .Integer v ∈ xs := by
  induction xs with
  | nil => simp [integersOf]
  | cons x xs ih => cases x <;> simp [integersOf, ih]

theorem floatsOf_eq_nil_of_integers (xs : List Object)
    (h : ∀ x ∈ xs, ∃ v, x = .Integer v) : floatsOf xs = [] := by
  rw [List.eq_nil_iff_forall_not_mem]
  intro v hv
  obtain ⟨w, hw⟩ := h _ ((mem_floatsOf xs v).1 hv)
  cases hw

theorem integersOf_ne_nil_of_integers (xs : List Object) (hne : xs ≠ [])
    (h : ∀ x ∈ xs, ∃ v, x = .Integer v) : integersOf xs ≠ [] := by
  cases xs with
  | nil => exact absurd rfl hne
  | cons x xs =>
    obtain ⟨v, hv⟩ := h x (List.mem_cons_self _ _)
    subst hv
    simp [integersOf]

/-! ## The first element that is not a number -/

theorem maxLoop_first_non_numeric (typeName : TypeNames) (pre post : List Object)
    (bad : Object) (st : Best) (hpre : ∀ x ∈ pre, isNumeric x = true)
    (hbad : isNumeric bad = false) :
    maxLoop typeName (pre ++ bad :: post) st =
      .error (.Error ("invalid array item for math.max: " ++ typeName bad)) := by
  induction pre generalizing st with
  | nil => cases bad <;> first | rfl | simp [isNumeric] at hbad
  | cons x pre ih =>
    have hx := hpre x (List.mem_cons_self _ _)
    have hrest : ∀ y ∈ pre, isNumeric y = true :=
      fun y hy => hpre y (List.mem_cons_of_mem _ hy)
    cases x with
    | Integer v => simp only [List.cons_append, maxLoop]; exact ih _ hrest
    | Float v => simp only [List.cons_append, maxLoop]; exact ih _ hrest
    | _ => simp [isNumeric] at hx

theorem minLoop_first_non_numeric (typeName : TypeNames) (pre post : List Object)
    (bad : Object) (st : Best) (hpre : ∀ x ∈ pre, isNumeric x = true)
    (hbad : isNumeric bad = false) :
    minLoop typeName (pre ++ bad :: post) st =
      .error (.Error ("type error: invalid array item for math.min: " ++ typeName bad)) := by
  induction pre generalizing st with
  | nil => cases bad <;> first | rfl | simp [isNumeric] at hbad
  | cons x pre ih =>
    have hx := hpre x (List.mem_cons_self _ _)
    have hrest : ∀ y ∈ pre, isNumeric y = true :=
      fun y hy => hpre y (List.mem_cons_of_mem _ hy)
    cases x with
    | Integer v => simp only [List.cons_append, minLoop]; exact ih _ hrest
    | Float v => simp only [List.cons_append, minLoop]; exact ih _ hrest
    | _ => simp [isNumeric] at hx

/-- `Max` stops at the first element that is not a number and reports its kind; the
message has no category prefix. -/
theorem Max_first_non_numeric (typeName : TypeNames) (arg : Object)
    (pre post : List Object) (bad : Object)
    (harg : elementsOf arg = some (pre ++ bad :: post))
    (hpre : ∀ x ∈ pre, isNumeric x = true) (hbad : isNumeric bad = false) :
    Max typeName [arg] =
      .ok (.Error ("invalid array item for math.max: " ++ typeName bad)) := by
  unfold Max
  simp [RequireArgs_one, index, harg,
    maxLoop_first_non_numeric typeName pre post bad {} hpre hbad]

/-- `Min` stops at the first element that is not a number and reports its kind in a
`type error`. -/
theorem Min_first_non_numeric (typeName : TypeNames) (arg : Object)
    (pre post : List Object) (bad : Object)
    (harg : elementsOf arg = some (pre ++ bad :: post))
    (hpre : ∀ x ∈ pre, isNumeric x = true) (hbad : isNumeric bad = false) :
    Min typeName [arg] =
      .ok (.Error ("type error: invalid array item for math.min: " ++ typeName bad)) := by
  unfold Min
  simp [RequireArgs_one, index, harg,
    minLoop_first_non_numeric typeName pre post bad {} hpre hbad]

/-! ## `Abs` on a Float -/

theorem Float64.isNaN_mulNegOne (v : Float64) : v.mulNegOne.isNaN = v.isNaN := rfl

theorem Float64.mag_mulNegOne (v : Float64) : v.mulNegOne.mag = v.mag := rfl

theorem Float64.key_zero : Float64.zero.key = 0 := by decide

theorem Float64.isNaN_zero : Float64.zero.isNaN = false := by decide

/-- The value `Abs` computes for a Float that is not a NaN compares `>= 0`. -/
theorem Float64.abs_ge_zero (v : Float64) (h : v.isNaN = false) :
    (if v.lt Float64.zero then v.mulNegOne else v).ge Float64.zero = true := by
  by_cases hlt : v.lt Float64.zero = true
  · rw [if_pos hlt]
    have hkey : v.key < 0 := by
      simpa [Float64.lt, h, Float64.isNaN_zero, Float64.key_zero] using hlt
    have hsign : v.sign = true := by
      by_contra hs
      simp only [Float64.key, hs] at hkey
      simp at hkey
      omega
    have hk : v.mulNegOne.key = (v.mag : Int) := by
      show (if (!v.sign) = true then -(v.mulNegOne.mag : Int) else (v.mulNegOne.mag : Int)) = _
      rw [hsign, Float64.mag_mulNegOne]
      rfl
    have hn : v.mulNegOne.isNaN = false := by rw [Float64.isNaN_mulNegOne]; exact h
    unfold Float64.ge
    rw [hn, Float64.isNaN_zero, Float64.key_zero, hk]
    simp
  · rw [if_neg hlt]
    have hkey : ¬ v.key < 0 := by
      simpa [Float64.lt, h, Float64.isNaN_zero, Float64.key_zero] using hlt
    simp [Float64.ge, h, Float64.isNaN_zero, Float64.key_zero]
    omega

/-- A NaN is returned by `Abs` as it is, and compares `>= 0` false. -/
theorem Float64.abs_nan (v : Float64) (h : v.isNaN = true) :
    (if v.lt Float64.zero then v.mulNegOne else v) = v ∧ v.ge Float64.zero = false := by
  constructor
  · rw [if_neg]; simp [Float64.lt, h]
  · simp [Float64.ge, h]

/-! ## Ties between the best Integer and the best Float -/

theorem Float64.not_lt_of_eq (x y : Float64) (h : x.eq y = true) :
    x.lt y = false ∧ y.lt x = false := by
  simp only [Float64.eq, Bool.and_eq_true, Bool.not_eq_true', decide_eq_true_eq] at h
  obtain ⟨⟨hx, hy⟩, hk⟩ := h
  simp [Float64.lt, hx, hy, hk]

theorem floatsOf_ne_nil_of_best {beats : Float64 → Float64 → Bool} {xs : List Object}
    {f : Float64} (h : bestOf beats (floatsOf xs) = some f) : xs ≠ [] := by
  intro hxs
  subst hxs
  simp [floatsOf, bestOf] at h

/-! ## The counters of `Service` -/

theorem Service.Balanced_step (s : Service) (c : Call) (h : s.Balanced) :
    (s.step c).Balanced := by
  unfold Service.Balanced isInt64 at *
  obtain ⟨h1, h2, h3⟩ := h
  cases c with
  | Start =>
    by_cases hr : s.running = true
    · simp only [Service.step, Service.Start, hr, if_true]
      simp only [hr, if_true] at h3
      exact ⟨h1, h2, h3⟩
    · simp only [Service.step, Service.Start, hr]
      simp only [hr] at h3
      simp only [if_true, Bool.false_eq_true, if_false] at h3 ⊢
      unfold wrapInt64 at *
      refine ⟨?_, h2, ?_⟩ <;> omega
  | Stop =>
    by_cases hr : s.running = true
    · simp only [Service.step, Service.Stop, hr, Bool.not_true, Bool.false_eq_true, if_false]
      simp only [hr, if_true] at h3
      unfold wrapInt64 at *
      refine ⟨h1, ?_, ?_⟩ <;> omega
    · have hr2 : s.running = false := by simpa using hr
      simp only [Service.step, Service.Stop, hr2, Bool.not_false, if_true]
      simp only [hr2, Bool.false_eq_true, if_false] at h3 ⊢
      exact ⟨h1, h2, h3⟩
  | SetName name => exact ⟨h1, h2, h3⟩
  | GetName => exact ⟨h1, h2, h3⟩
  | PrintState => exact ⟨h1, h2, h3⟩
  | GetMetrics => exact ⟨h1, h2, h3⟩

theorem Service.Balanced_run (s : Service) (calls : List Call) (h : s.Balanced) :
    (s.run calls).Balanced := by
  induction calls generalizing s with
  | nil => exact h
  | cons c calls ih => exact ih (s.step c) (Service.Balanced_step s c h)

theorem Service.Counted_step (s : Service) (c : Call) (n : Nat) (h : s.Counted n)
    (hn : (n : Int) + 1 < 9223372036854775808) : (s.step c).Counted (n + 1) := by
  unfold Service.Counted at *
  obtain ⟨h1, h2, h3, h4, h5⟩ := h
  cases c with
  | Start =>
    by_cases hr : s.running = true
    · simp only [Service.step, Service.Start, hr, if_true]
      simp only [hr, if_true] at h5
      push_cast
      refine ⟨h1, ?_, h3, ?_, h5⟩ <;> omega
    · simp only [Service.step, Service.Start, hr]
      simp only [hr] at h5
      simp only [if_true, Bool.false_eq_true, if_false] at h5 ⊢
      unfold wrapInt64
      push_cast
      refine ⟨?_, ?_, h3, ?_, ?_⟩ <;> omega
  | Stop =>
    by_cases hr : s.running = true
    · simp only [Service.step, Service.Stop, hr, Bool.not_true, Bool.false_eq_true, if_false]
      simp only [hr, if_true] at h5
      unfold wrapInt64
      push_cast
      refine ⟨h1, ?_, ?_, ?_, ?_⟩ <;> omega
    · have hr2 : s.running = false := by simpa using hr
      simp only [Service.step, Service.Stop, hr2, Bool.not_false, if_true]
      simp only [hr2, Bool.false_eq_true, if_false] at h5 ⊢
      push_cast
      refine ⟨h1, ?_, h3, ?_, h5⟩ <;> omega
  | SetName name =>
    simp only [Service.step, Service.SetName]; push_cast
    refine ⟨h1, ?_, h3, ?_, h5⟩ <;> omega
  | GetName => simp only [Service.step]; push_cast; refine ⟨h1, ?_, h3, ?_, h5⟩ <;> omega
  | PrintState => simp only [Service.step]; push_cast; refine ⟨h1, ?_, h3, ?_, h5⟩ <;> omega
  | GetMetrics => simp only [Service.step]; push_cast; refine ⟨h1, ?_, h3, ?_, h5⟩ <;> omega

theorem Service.Counted_run (s : Service) (calls : List Call) (n : Nat) (h : s.Counted n)
    (hn : (n : Int) + calls.length < 9223372036854775808) :
    (s.run calls).Counted (n + calls.length) := by
  induction calls generalizing s n with
  | nil => exact h
  | cons c calls ih =>
    have hlen : ((c :: calls).length : Int) = calls.length + 1 := by simp
    rw [hlen] at hn
    have hstep := Service.Counted_step s c n h (by omega)
    have := ih (s.step c) (n + 1) hstep (by push_cast; omega)
    simpa [Service.run, List.length_cons, Nat.add_assoc, Nat.add_comm 1] using this

/-! ## The replacer of workflow commands -/

theorem workflowCommandReplacer_copy (c : Char) (rest : List Char) (hr : c ≠ '\r')
    (hn : c ≠ '\n') (hc : c = ':' → ∀ rest1, rest ≠ ':' :: rest1) :
    workflowCommandReplacer (c :: rest) = c :: workflowCommandReplacer rest := by
  rw [workflowCommandReplacer]
  · intro rest1 h1 _; exact hr h1
  · intro h1; exact hr h1
  · intro h1; exact hn h1
  · intro rest1 h1 h2; exact hc h1 rest1 h2

theorem workflowCommandReplacer_cr (rest : List Char) (h : ∀ rest1, rest ≠ '\n' :: rest1) :
    workflowCommandReplacer ('\r' :: rest) = '%' :: '0' :: 'A' :: workflowCommandReplacer rest := by
  rw [workflowCommandReplacer]
  intro rest1 h1; exact h rest1 h1

/-- The output starts with a colon only where the input does. -/
theorem workflowCommandReplacer_head (l : List Char) (out : List Char)
    (h : workflowCommandReplacer l = ':' :: out) : ∃ rest, l = ':' :: rest := by
  induction l using workflowCommandReplacer.induct with
  | case1 => simp [workflowCommandReplacer] at h
  | case2 rest _ => simp [workflowCommandReplacer] at h
  | case3 rest hne _ =>
    rw [workflowCommandReplacer_cr rest (fun r hr => hne r hr)] at h
    simp at h
  | case4 rest _ => simp [workflowCommandReplacer] at h
  | case5 rest _ => simp [workflowCommandReplacer] at h
  | case6 c rest _ hr hn hc _ =>
    rw [workflowCommandReplacer_copy c rest hr hn (fun h1 r h2 => hc r h1 h2)] at h
    simp only [List.cons.injEq] at h
    exact ⟨rest, by rw [h.1]⟩

/-- The replaced text holds no carriage return, no line feed and no `::`. -/
theorem workflowCommandReplacer_clean (l : List Char) :
    '\r' ∉ workflowCommandReplacer l ∧ '\n' ∉ workflowCommandReplacer l ∧
    ¬ ([':', ':'] <:+: workflowCommandReplacer l) := by
  induction l using workflowCommandReplacer.induct with
  | case1 => simp [workflowCommandReplacer]
  | case2 rest ih =>
    obtain ⟨h1, h2, h3⟩ := ih
    simp only [workflowCommandReplacer]
    refine ⟨by simp [h1], by simp [h2], ?_⟩
    simp [List.infix_cons_iff, h3]
  | case3 rest hne ih =>
    obtain ⟨h1, h2, h3⟩ := ih
    rw [workflowCommandReplacer_cr rest (fun r hr => hne r hr)]
    refine ⟨by simp [h1], by simp [h2], ?_⟩
    simp [List.infix_cons_iff, h3]
  | case4 rest ih =>
    obtain ⟨h1, h2, h3⟩ := ih
    simp only [workflowCommandReplacer]
    refine ⟨by simp [h1], by simp [h2], ?_⟩
    simp [List.infix_cons_iff, h3]
  | case5 rest ih =>
    obtain ⟨h1, h2, h3⟩ := ih
    simp only [workflowCommandReplacer]
    refine ⟨by simp [h1], by simp [h2], ?_⟩
    simp [List.infix_cons_iff, h3]
  | case6 c rest _ hr hn hc ih =>
    obtain ⟨h1, h2, h3⟩ := ih
    rw [workflowCommandReplacer_copy c rest hr hn (fun h1 r h2 => hc r h1 h2)]
    refine ⟨?_, ?_, ?_⟩
    · simp only [List.mem_cons, not_or]
      exact ⟨fun h => hr h.symm, h1⟩
    · simp only [List.mem_cons, not_or]
      exact ⟨fun h => hn h.symm, h2⟩
    · rw [List.infix_cons_iff]
      rintro (hpre | hin)
      · obtain ⟨t, ht⟩ := hpre
        simp only [List.cons_append, List.cons.injEq, List.nil_append] at ht
        obtain ⟨hc1, ht2⟩ := ht
        obtain ⟨r, hrr⟩ := workflowCommandReplacer_head rest t ht2.symm
        exact hc r hc1.symm hrr
      · exact h3 hin

/-- A text without carriage return, line feed and `::` is left as it is. -/
theorem workflowCommandReplacer_id (l : List Char) (hr : '\r' ∉ l) (hn : '\n' ∉ l)
    (hc : ¬ ([':', ':'] <:+: l)) : workflowCommandReplacer l = l := by
  induction l using workflowCommandReplacer.induct with
  | case1 => rfl
  | case2 rest _ => simp at hr
  | case3 rest _ _ => simp at hr
  | case4 rest _ => simp at hn
  | case5 rest _ =>
    exact absurd ⟨[], rest, by simp⟩ hc
  | case6 c rest _ h1 h2 h3 ih =>
    rw [workflowCommandReplacer_copy c rest h1 h2 (fun e r h => h3 r e h)]
    rw [ih (fun h => hr (List.mem_cons_of_mem _ h)) (fun h => hn (List.mem_cons_of_mem _ h))
      (fun h => hc (List.infix_cons h))]

theorem trimSuffixNewline_id (l : List Char) (hn : '\n' ∉ l) : trimSuffixNewline l = l := by
  unfold trimSuffixNewline
  rw [if_neg]
  intro h
  exact hn (List.mem_of_getLast?_eq_some h)

theorem trimSuffixNewline_append (l : List Char) : trimSuffixNewline (l ++ ['\n']) = l := by
  unfold trimSuffixNewline
  simp

/-! ## The delimiter of a workflow file entry -/

theorem charset_getD_mem (i : Fin 36) : charset.data.getD i.val 'A' ∈ charset.data := by
  revert i; decide

theorem charset_upper_or_digit (c : Char) (h : c ∈ charset.data) :
    ('A' ≤ c ∧ c ≤ 'Z') ∨ ('0' ≤ c ∧ c ≤ '9') := by
  have hall : ∀ x ∈ charset.data, ('A' ≤ x ∧ x ≤ 'Z') ∨ ('0' ≤ x ∧ x ≤ '9') := by decide
  exact hall c h

/-- With enough fuel the loop ends: the delimiter extends the starting one by characters
of `charset`, occurs neither in `key` nor in `value`, and is the starting one when that
does not occur in them. -/
theorem eofLoop_spec (rand : Nat → Fin 36) (key value : String) (fuel : Nat) :
    ∀ (n : Nat) (eof : List Char),
      max key.length value.length + 1 ≤ fuel + eof.length →
      ∃ d ext, eofLoop rand key value (fuel + 1) n eof = some d ∧ d = eof ++ ext ∧
        (∀ c ∈ ext, c ∈ charset.data) ∧
        ¬ (d <:+: key.data) ∧ ¬ (d <:+: value.data) ∧
        (¬ (eof <:+: key.data) → ¬ (eof <:+: value.data) → d = eof) := by
  induction fuel with
  | zero =>
    intro n eof h
    have hk : ¬ (eof <:+: key.data) := by
      intro hin
      have := hin.length_le
      have hkl : key.data.length = key.length := rfl
      omega
    have hv : ¬ (eof <:+: value.data) := by
      intro hin
      have := hin.length_le
      have hvl : value.data.length = value.length := rfl
      omega
    refine ⟨eof, [], ?_, by simp, by simp, hk, hv, fun _ _ => rfl⟩
    simp [eofLoop, hk, hv]
  | succ fuel ih =>
    intro n eof h
    by_cases hc : eof <:+: key.data ∨ eof <:+: value.data
    · obtain ⟨d, ext, h1, h2, h3, h4, h5, _⟩ :=
        ih (n + 1) (eof ++ [charset.data.getD (rand n).val 'A'])
          (by simp only [List.length_append, List.length_singleton]; omega)
      refine ⟨d, charset.data.getD (rand n).val 'A' :: ext, ?_, ?_, ?_, h4, h5, ?_⟩
      · rw [eofLoop, if_pos hc]; exact h1
      · rw [h2]; simp
      · intro c hcm
        rcases List.mem_cons.1 hcm with hc1 | hc1
        · rw [hc1]; exact charset_getD_mem _
        · exact h3 c hc1
      · intro hk hv
        exact absurd hc (by simp [hk, hv])
    · have hk : ¬ (eof <:+: key.data) := fun h1 => hc (Or.inl h1)
      have hv : ¬ (eof <:+: value.data) := fun h1 => hc (Or.inr h1)
      refine ⟨eof, [], ?_, by simp, by simp, hk, hv, fun _ _ => rfl⟩
      rw [eofLoop, if_neg hc]

/-- A result of the loop does not change with more fuel. -/
theorem eofLoop_fuel (rand : Nat → Fin 36) (key value : String) (fuel k : Nat) :
    ∀ (n : Nat) (eof d : List Char), eofLoop rand key value fuel n eof = some d →
      eofLoop rand key value (fuel + k) n eof = some d := by
  induction fuel with
  | zero => intro n eof d h; simp [eofLoop] at h
  | succ fuel ih =>
    intro n eof d h
    rw [Nat.add_right_comm]
    rw [eofLoop] at h ⊢
    split
    · rename_i hc
      rw [if_pos hc] at h
      exact ih _ _ _ h
    · rename_i hc
      rw [if_neg hc] at h
      exact h

/-! ## The properties of a workflow command -/

theorem mem_keys_mapSet (m : GoMap) (k : String) (v : GoAny) (k1 : String) :
    k1 ∈ (mapSet m k v).map Prod.fst ↔ k1 ∈ m.map Prod.fst ∨ k1 = k := by
  unfold mapSet
  split
  · rename_i hany
    have hk : k ∈ m.map Prod.fst := by
      simp only [List.any_eq_true, beq_iff_eq] at hany
      obtain ⟨e, he, hek⟩ := hany
      exact List.mem_map.2 ⟨e, he, hek⟩
    have hkeys : (m.map (fun e => if e.1 = k then (k, v) else e)).map Prod.fst =
        m.map Prod.fst := by
      rw [List.map_map]
      apply List.map_congr_left
      intro e _
      by_cases he : e.1 = k
      · simp [he]
      · simp [he]
    rw [hkeys]
    constructor
    · exact fun h => Or.inl h
    · rintro (h | h)
      · exact h
      · rw [h]; exact hk
  · simp [List.map_append]

theorem commandPropKey_accepts (key cmdKey : String)
    (h : commandPropKey key = (cmdKey, true)) :
    (key = "title" ∧ cmdKey = "title") ∨ (key = "file" ∧ cmdKey = "file") ∨
    (key = "line" ∧ cmdKey = "line") ∨ (key = "column" ∧ cmdKey = "col") ∨
    (key = "end_line" ∧ cmdKey = "endLine") ∨ (key = "end_column" ∧ cmdKey = "endColumn") := by
  unfold commandPropKey at h
  split_ifs at h with h1 h2 h3 h4
  · simp only [Prod.mk.injEq, and_true] at h
    rcases h1 with h1 | h1 | h1
    · exact Or.inl ⟨h1, by rw [← h, h1]⟩
    · exact Or.inr (Or.inl ⟨h1, by rw [← h, h1]⟩)
    · exact Or.inr (Or.inr (Or.inl ⟨h1, by rw [← h, h1]⟩))
  · simp only [Prod.mk.injEq, and_true] at h
    exact Or.inr (Or.inr (Or.inr (Or.inl ⟨h2, h.symm⟩)))
  · simp only [Prod.mk.injEq, and_true] at h
    exact Or.inr (Or.inr (Or.inr (Or.inr (Or.inl ⟨h3, h.symm⟩))))
  · simp only [Prod.mk.injEq, and_true] at h
    exact Or.inr (Or.inr (Or.inr (Or.inr (Or.inr ⟨h4, h.symm⟩))))
  · simp at h

theorem commandPropKey_rejects (key : String)
    (h : key ∉ ["title", "file", "line", "column", "end_line", "end_column"]) :
    commandPropKey key = ("", false) := by
  simp only [List.mem_cons, List.mem_singleton, not_or, List.not_mem_nil, or_false] at h
  obtain ⟨h1, h2, h3, h4, h5, h6⟩ := h
  simp [commandPropKey, h1, h2, h3, h4, h5, h6]

/-- The keys of the map the loop of `asCommandProps` builds from `init`. -/
theorem mem_keys_asCommandProps_loop (o : ObjectMethods) (obj : ObjectMap)
    (keys : List String) (init : GoMap) (k1 : String) :
    k1 ∈ (keys.foldl
      (fun props key =>
        match commandPropKey key with
        | (_, false) => props
        | (cmdKey, true) => mapSet props cmdKey (printableValue o (obj.Get key)))
      init).map Prod.fst ↔
    k1 ∈ init.map Prod.fst ∨ ∃ key ∈ keys, commandPropKey key = (k1, true) := by
  induction keys generalizing init with
  | nil => simp
  | cons key keys ih =>
    rw [List.foldl_cons, ih]
    rcases hck : commandPropKey key with ⟨cmdKey, _ | _⟩
    · simp only [List.mem_cons, exists_eq_or_imp, hck, Prod.mk.injEq, Bool.false_eq_true,
        and_false, false_or]
    · simp only [List.mem_cons, exists_eq_or_imp, hck, Prod.mk.injEq, and_true,
        mem_keys_mapSet]
      constructor
      · rintro ((h | h) | h)
        · exact Or.inl h
        · exact Or.inr (Or.inl h.symm)
        · exact Or.inr (Or.inr h)
      · rintro (h | h | h)
        · exact Or.inl (Or.inl h)
        · exact Or.inl (Or.inr h.symm)
        · exact Or.inr h

/-! ## The claims -/

/-- C1: every math builtin, on every argument sequence of any length and any kinds of
value, returns an object (a result or an error object) and never panics on an index out
of range: `args[0]` (and `args[1]` in `Mod` and `Pow`) is only read on the branch where
`RequireArgs` returned nil for a count that covers the index. -/
theorem C1_builtins_return_without_panic (m : GoMath) (typeName : TypeNames)
    (args : List Object) :
    (∃ v, Abs typeName args = .ok v) ∧ (∃ v, Sqrt m typeName args = .ok v) ∧
    (∃ v, Max typeName args = .ok v) ∧ (∃ v, Min typeName args = .ok v) ∧
    (∃ v, Ceil m typeName args = .ok v) ∧ (∃ v, Floor m typeName args = .ok v) ∧
    (∃ v, Sin m typeName args = .ok v) ∧ (∃ v, Cos m typeName args = .ok v) ∧
    (∃ v, Tan m typeName args = .ok v) ∧ (∃ v, Mod m typeName args = .ok v) ∧
    (∃ v, Log m typeName args = .ok v) ∧ (∃ v, Log10 m typeName args = .ok v) ∧
    (∃ v, Log2 m typeName args = .ok v) ∧ (∃ v, Pow m typeName args = .ok v) ∧
    (∃ v, Pow10 m typeName args = .ok v) ∧ (∃ v, IsInf typeName args = .ok v) ∧
    (∃ v, Round m typeName args = .ok v) :=
  ⟨Abs_returns typeName args, Sqrt_returns m typeName args, Max_returns typeName args,
    Min_returns typeName args, Ceil_returns m typeName args, Floor_returns m typeName args,
    Sin_returns m typeName args, Cos_returns m typeName args, Tan_returns m typeName args,
    Mod_returns m typeName args, Log_returns m typeName args, Log10_returns m typeName args,
    Log2_returns m typeName args, Pow_returns m typeName args, Pow10_returns m typeName args,
    IsInf_returns typeName args, Round_returns m typeName args⟩

/-- C2: for every function name, count and argument sequence, `RequireArgs` returns no
error exactly when `len(args)` equals `count`, and an error object otherwise. For every
function name the module passes, and every other name without a `%`, the message of
that error is `type error: <name>() takes exactly one argument (<n> given)`: it contains
the function name and the number of arguments given. -/
theorem C2_RequireArgs_arity_check (funcName : String) (count : Int) (args : List Object) :
    (RequireArgs funcName count args = none ↔ (args.length : Int) = count) ∧
    ((args.length : Int) ≠ count → ∃ msg, RequireArgs funcName count args = some (.Error msg)) ∧
    (funcName ∈ builtinNames ∨ '%' ∉ funcName.data → (args.length : Int) ≠ count →
      ∃ msg, RequireArgs funcName count args = some (.Error msg) ∧
        msg = "type error: " ++ funcName ++ "() takes exactly one argument (" ++
          toString args.length ++ " given)" ∧
        funcName.data <:+: msg.data ∧ (toString args.length).data <:+: msg.data) := by
  refine ⟨RequireArgs_eq_none_iff funcName count args, fun h => ?_, fun hname h => ?_⟩
  · refine ⟨Sprintf0 (arityMessage funcName args.length), ?_⟩
    unfold RequireArgs NewError
    simp only [h, ne_eq, not_false_eq_true, if_true]
    rfl
  · have hfree : '%' ∉ funcName.data := by
      rcases hname with hmem | hfree
      · exact builtinNames_no_percent funcName hmem
      · exact hfree
    obtain ⟨msg, hmsg, hn, hc⟩ := (RequireArgs_spec funcName count args hfree).2 h
    have hexact := RequireArgs_message funcName count args hfree h
    rw [hexact] at hmsg
    have hm : msg = arityMessage funcName args.length := by
      injection hmsg with h1
      injection h1 with h2
      exact h2.symm
    exact ⟨msg, by rw [hexact, hm], hm, hn, hc⟩

/-- C2 (witness): `math.mod` called with one argument, and with two. -/
theorem C2_RequireArgs_arity_check_witness :
    (∃ msg, RequireArgs "math.mod" 2 [.Integer 1] = some (.Error msg) ∧
      msg = "type error: " ++ "math.mod" ++ "() takes exactly one argument (" ++
        toString [Object.Integer 1].length ++ " given)" ∧
      "math.mod".data <:+: msg.data ∧ (toString [Object.Integer 1].length).data <:+: msg.data) ∧
    RequireArgs "math.mod" 2 [.Integer 1] =
      some (.Error "type error: math.mod() takes exactly one argument (1 given)") ∧
    RequireArgs "math.mod" 2 [.Integer 1, .Integer 2] = none :=
  ⟨(C2_RequireArgs_arity_check "math.mod" 2 [.Integer 1]).2.2 (Or.inl (by decide)) (by decide),
    by rfl, by rfl⟩

/-- C3 (counterexample): `Abs` called with no argument returns an error whose message
begins with `type error`, not with `arity error`. -/
theorem C3_Abs_arity_message_not_arity_error :
    Abs kindNames [] =
      .ok (.Error "type error: math.abs() takes exactly one argument (0 given)") ∧
    ¬ ("arity error".data <+: "type error: math.abs() takes exactly one argument (0 given)".data) :=
  ⟨by rfl, by decide⟩

/-- C3 (amended): every math builtin of exact arity 1, called with 0 or 2 arguments,
returns the error object whose message is
`type error: <name>() takes exactly one argument (<n> given)`; the message begins with
the category `type error` and names the function and the number of arguments given. -/
theorem C3_arity_mismatch_is_type_error (m : GoMath) (typeName : TypeNames)
    (args : List Object) (h : args.length = 0 ∨ args.length = 2) :
    (∀ name, "type error".data <+: (arityMessage name args.length).data) ∧
    Abs typeName args = .ok (.Error (arityMessage "math.abs" args.length)) ∧
    Sqrt m typeName args = .ok (.Error (arityMessage "math.sqrt" args.length)) ∧
    Max typeName args = .ok (.Error (arityMessage "math.max" args.length)) ∧
    Min typeName args = .ok (.Error (arityMessage "math.min" args.length)) ∧
    Ceil m typeName args = .ok (.Error (arityMessage "math.ceil" args.length)) ∧
    Floor m typeName args = .ok (.Error (arityMessage "math.floor" args.length)) ∧
    Sin m typeName args = .ok (.Error (arityMessage "math.sin" args.length)) ∧
    Cos m typeName args = .ok (.Error (arityMessage "math.cos" args.length)) ∧
    Tan m typeName args = .ok (.Error (arityMessage "math.tan" args.length)) ∧
    Log m typeName args = .ok (.Error (arityMessage "math.log" args.length)) ∧
    Log10 m typeName args = .ok (.Error (arityMessage "math.log10" args.length)) ∧
    Log2 m typeName args = .ok (.Error (arityMessage "math.log2" args.length)) ∧
    Pow10 m typeName args = .ok (.Error (arityMessage "math.pow10" args.length)) ∧
    IsInf typeName args = .ok (.Error (arityMessage "math.is_inf" args.length)) ∧
    Round m typeName args = .ok (.Error (arityMessage "math.round" args.length)) := by
  have hne : (args.length : Int) ≠ 1 := by
    rcases h with h | h <;> rw [h] <;> decide
  refine ⟨fun name => ⟨(": " ++ name ++ "() takes exactly one argument (" ++
    toString args.length ++ " given)").data, ?_⟩, ?_, ?_, ?_, ?_, ?_, ?_, ?_, ?_, ?_, ?_, ?_, ?_, ?_, ?_, ?_⟩
  · simp [arityMessage, String.data_append]
  · unfold Abs; rw [RequireArgs_message "math.abs" 1 args (by decide) hne]
  · unfold Sqrt; rw [RequireArgs_message "math.sqrt" 1 args (by decide) hne]
  · unfold Max; rw [RequireArgs_message "math.max" 1 args (by decide) hne]
  · unfold Min; rw [RequireArgs_message "math.min" 1 args (by decide) hne]
  · unfold Ceil; rw [RequireArgs_message "math.ceil" 1 args (by decide) hne]
  · unfold Floor; rw [RequireArgs_message "math.floor" 1 args (by decide) hne]
  · unfold Sin; rw [RequireArgs_message "math.sin" 1 args (by decide) hne]
  · unfold Cos; rw [RequireArgs_message "math.cos" 1 args (by decide) hne]
  · unfold Tan; rw [RequireArgs_message "math.tan" 1 args (by decide) hne]
  · unfold Log; rw [RequireArgs_message "math.log" 1 args (by decide) hne]
  · unfold Log10; rw [RequireArgs_message "math.log10" 1 args (by decide) hne]
  · unfold Log2; rw [RequireArgs_message "math.log2" 1 args (by decide) hne]
  · unfold Pow10; rw [RequireArgs_message "math.pow10" 1 args (by decide) hne]
  · unfold IsInf; rw [RequireArgs_message "math.is_inf" 1 args (by decide) hne]
  · unfold Round; rw [RequireArgs_message "math.round" 1 args (by decide) hne]

/-- C3 (witness): the amended statement at the empty argument list. -/
theorem C3_arity_mismatch_witness :
    (([] : List Object).length = 0 ∨ ([] : List Object).length = 2) ∧
    Abs kindNames [] = .ok (.Error (arityMessage "math.abs" 0)) ∧
    Tan noMath kindNames [] = .ok (.Error (arityMessage "math.tan" 0)) :=
  ⟨Or.inl rfl,
    (C3_arity_mismatch_is_type_error noMath kindNames [] (Or.inl rfl)).2.1,
    (C3_arity_mismatch_is_type_error noMath kindNames [] (Or.inl rfl)).2.2.2.2.2.2.2.2.2.1⟩

/-- C4 (the failing input): on the minimum `int64` the multiplication `v * -1` wraps,
and `Abs` returns the Integer `-2^63`, which is negative. -/
theorem C4_Abs_min_int64_is_negative :
    isInt64 (-9223372036854775808) ∧
    Abs kindNames [.Integer (-9223372036854775808)] = .ok (.Integer (-9223372036854775808)) ∧
    ¬ (0 ≤ (-9223372036854775808 : Int)) :=
  ⟨by decide, by rfl, by decide⟩

/-- C5 (counterexample): the maximum of the Integers `[1, 2, 3]` is returned as the
Float `3.0`, not as the Integer `3`; so is the minimum, the Float `1.0`. -/
theorem C5_Max_of_integers_is_Float :
    Max kindNames [.Array [.Integer 1, .Integer 2, .Integer 3]] = .ok (.Float Float64.three) ∧
    Max kindNames [.Array [.Integer 1, .Integer 2, .Integer 3]] ≠ .ok (.Integer 3) ∧
    Min kindNames [.Array [.Integer 1, .Integer 2, .Integer 3]] = .ok (.Float Float64.one) := by
  have h : Max kindNames [.Array [.Integer 1, .Integer 2, .Integer 3]] =
      .ok (.Float Float64.three) := by rfl
  refine ⟨h, ?_, by rfl⟩
  rw [h]
  intro hcontra
  cases hcontra

/-- C5 (amended): on every non-empty sequence of Integers and Floats, `Max` and `Min`
return a Float in every case: the best Float if a Float was seen and no Integer was seen
or the widened best Integer does not beat it, and otherwise the best Integer widened to
floating point. Over Integers only, the result is the greatest (least) Integer of the
sequence, widened to a Float. -/
theorem C5_Max_Min_return_Float (typeName : TypeNames) (arg : Object) (xs : List Object)
    (harg : elementsOf arg = some xs) (hne : xs ≠ [])
    (hnum : ∀ x ∈ xs, isNumeric x = true) :
    Max typeName [arg] = .ok (.Float (widenedBest maxBeatsInt maxBeatsFlt xs)) ∧
    Min typeName [arg] = .ok (.Float (widenedBest minBeatsInt minBeatsFlt xs)) ∧
    ((∀ x ∈ xs, ∃ v, x = .Integer v) →
      ∃ hi lo, (hi ∈ integersOf xs ∧ ∀ v ∈ integersOf xs, v ≤ hi) ∧
        (lo ∈ integersOf xs ∧ ∀ v ∈ integersOf xs, lo ≤ v) ∧
        Max typeName [arg] = .ok (.Float (Float64.ofInt64 hi)) ∧
        Min typeName [arg] = .ok (.Float (Float64.ofInt64 lo))) := by
  have hmax := Max_numeric typeName arg xs harg hne hnum
  have hmin := Min_numeric typeName arg xs harg hne hnum
  refine ⟨hmax, hmin, fun hint => ?_⟩
  have hf := floatsOf_eq_nil_of_integers xs hint
  have hi := integersOf_ne_nil_of_integers xs hne hint
  obtain ⟨hi', hhi⟩ := bestOf_isSome maxBeatsInt _ hi
  obtain ⟨lo', hlo⟩ := bestOf_isSome minBeatsInt _ hi
  refine ⟨hi', lo', bestOf_maxInt _ _ hhi, bestOf_minInt _ _ hlo, ?_, ?_⟩
  · rw [hmax]; unfold widenedBest; rw [hf, hhi]; rfl
  · rw [hmin]; unfold widenedBest; rw [hf, hlo]; rfl

/-- C5 (witness): the amended statement at the Array `[1, 2, 3]`. -/
theorem C5_Max_Min_return_Float_witness :
    Max kindNames [.Array [.Integer 1, .Integer 2, .Integer 3]] =
      .ok (.Float (widenedBest maxBeatsInt maxBeatsFlt [.Integer 1, .Integer 2, .Integer 3])) ∧
    widenedBest maxBeatsInt maxBeatsFlt [.Integer 1, .Integer 2, .Integer 3] = Float64.three :=
  ⟨(C5_Max_Min_return_Float kindNames (.Array [.Integer 1, .Integer 2, .Integer 3])
      [.Integer 1, .Integer 2, .Integer 3] rfl (by simp) (by simp [isNumeric])).1, by decide⟩

/-- C6: on every sequence of Integers and Floats that holds a Float, `Max` (`Min`)
returns a Float: the best Float seen when no Integer is present, and otherwise the
greater (lesser), under the native floating-point comparison, of the best Float seen and
the best Integer seen widened to floating point. -/
theorem C6_Max_Min_with_a_Float (typeName : TypeNames) (arg : Object) (xs : List Object)
    (harg : elementsOf arg = some xs) (hnum : ∀ x ∈ xs, isNumeric x = true)
    (hflt : ∃ v, Object.Float v ∈ xs) :
    ∃ f g, bestOf maxBeatsFlt (floatsOf xs) = some f ∧
      bestOf minBeatsFlt (floatsOf xs) = some g ∧
      Max typeName [arg] = .ok (.Float
        (match bestOf maxBeatsInt (integersOf xs) with
          | none => f
          | some i => if (Float64.ofInt64 i).gt f then Float64.ofInt64 i else f)) ∧
      Min typeName [arg] = .ok (.Float
        (match bestOf minBeatsInt (integersOf xs) with
          | none => g
          | some i => if (Float64.ofInt64 i).lt g then Float64.ofInt64 i else g)) := by
  obtain ⟨v, hv⟩ := hflt
  have hne : xs ≠ [] := List.ne_nil_of_mem hv
  have hfl : floatsOf xs ≠ [] := List.ne_nil_of_mem ((mem_floatsOf xs v).2 hv)
  obtain ⟨f, hf⟩ := bestOf_isSome maxBeatsFlt _ hfl
  obtain ⟨g, hg⟩ := bestOf_isSome minBeatsFlt _ hfl
  refine ⟨f, g, hf, hg, ?_, ?_⟩
  · rw [Max_numeric typeName arg xs harg hne hnum]
    unfold widenedBest
    rw [hf]
    cases bestOf maxBeatsInt (integersOf xs) <;> simp [maxBeatsFlt, Float64.gt]
  · rw [Min_numeric typeName arg xs harg hne hnum]
    unfold widenedBest
    rw [hg]
    cases bestOf minBeatsInt (integersOf xs) <;> simp [minBeatsFlt, Float64.gt]

/-- C6 (witness): the maximum of `[1, 2.5, 2]` is the Float `2.5`. -/
theorem C6_Max_Min_with_a_Float_witness :
    (∃ f g, bestOf maxBeatsFlt (floatsOf [.Integer 1, .Float Float64.twoAndAHalf, .Integer 2])
        = some f ∧
      bestOf minBeatsFlt (floatsOf [.Integer 1, .Float Float64.twoAndAHalf, .Integer 2])
        = some g ∧
      Max kindNames [.Array [.Integer 1, .Float Float64.twoAndAHalf, .Integer 2]] = .ok (.Float
        (match bestOf maxBeatsInt
            (integersOf [.Integer 1, .Float Float64.twoAndAHalf, .Integer 2]) with
          | none => f
          | some i => if (Float64.ofInt64 i).gt f then Float64.ofInt64 i else f)) ∧
      Min kindNames [.Array [.Integer 1, .Float Float64.twoAndAHalf, .Integer 2]] = .ok (.Float
        (match bestOf minBeatsInt
            (integersOf [.Integer 1, .Float Float64.twoAndAHalf, .Integer 2]) with
          | none => g
          | some i => if (Float64.ofInt64 i).lt g then Float64.ofInt64 i else g))) ∧
    Max kindNames [.Array [.Integer 1, .Float Float64.twoAndAHalf, .Integer 2]] =
      .ok (.Float Float64.twoAndAHalf) ∧
    Min kindNames [.Array [.Integer 1, .Float Float64.twoAndAHalf, .Integer 2]] =
      .ok (.Float Float64.one) :=
  ⟨C6_Max_Min_with_a_Float kindNames
      (.Array [.Integer 1, .Float Float64.twoAndAHalf, .Integer 2])
      [.Integer 1, .Float Float64.twoAndAHalf, .Integer 2] rfl (by simp [isNumeric])
      ⟨Float64.twoAndAHalf, by simp⟩,
    by rfl, by rfl⟩

/-- C7: on an empty Array or an empty Set, `Max` returns the error object with the message
`value error: math.max argument is an empty sequence` and `Min` the one with the message
`value error: math.min argument is an empty sequence`; neither returns a number. -/
theorem C7_empty_sequence_is_value_error (typeName : TypeNames) :
    Max typeName [.Array []] =
      .ok (.Error "value error: math.max argument is an empty sequence") ∧
    Max typeName [.Set []] =
      .ok (.Error "value error: math.max argument is an empty sequence") ∧
    Min typeName [.Array []] =
      .ok (.Error "value error: math.min argument is an empty sequence") ∧
    Min typeName [.Set []] =
      .ok (.Error "value error: math.min argument is an empty sequence") ∧
    isNumeric (.Error "value error: math.max argument is an empty sequence") = false ∧
    isNumeric (.Error "value error: math.min argument is an empty sequence") = false :=
  ⟨by rfl, by rfl, by rfl, by rfl, rfl, rfl⟩

/-- C8 (the failing input): on `[1, "x"]` the error of `Max` is
`invalid array item for math.max: <kind>`, which does not begin with `type error`; the
error of `Min` on the same sequence does. -/
theorem C8_Max_item_error_has_no_category :
    Max kindNames [.Array [.Integer 1, .String "x"]] =
      .ok (.Error "invalid array item for math.max: STRING") ∧
    ¬ ("type error".data <+: "invalid array item for math.max: STRING".data) ∧
    Min kindNames [.Array [.Integer 1, .String "x"]] =
      .ok (.Error "type error: invalid array item for math.min: STRING") ∧
    "type error".data <+: "type error: invalid array item for math.min: STRING".data :=
  ⟨by rfl, by decide, by rfl, by decide⟩

/-- C9 (counterexample): `Tan` called on a String returns the error of `AsFloat`, whose
message names the kind of the value but not the calling function `math.tan`. -/
theorem C9_AsFloat_error_omits_the_caller :
    Tan noMath kindNames [.String "x"] =
      .ok (.Error "type error: expected a number (got STRING)") ∧
    ¬ ("math.tan".data <:+: "type error: expected a number (got STRING)".data) ∧
    ¬ ("tan".data <:+: "type error: expected a number (got STRING)".data) :=
  ⟨by rfl, by decide, by decide⟩

/-- C9 (amended): `AsFloat` succeeds exactly on Integers and Floats, returning the
Integer widened to floating point or the Float itself, with a nil error; on every other
value it returns the error `type error: expected a number (got <kind>)`, which cites the
kind of the value and nothing of the caller: `Tan` and `Log` return the same error. -/
theorem C9_AsFloat (m : GoMath) (typeName : TypeNames) (obj : Object) :
    (∀ v, AsFloat typeName (.Integer v) = (Float64.ofInt64 v, none)) ∧
    (∀ v, AsFloat typeName (.Float v) = (v, none)) ∧
    ((AsFloat typeName obj).2 = none ↔ isNumeric obj = true) ∧
    (isNumeric obj = false →
      AsFloat typeName obj = (Float64.zero,
        some (.Error ("type error: expected a number (got " ++ typeName obj ++ ")"))) ∧
      "type error".data <+:
        ("type error: expected a number (got " ++ typeName obj ++ ")").data ∧
      (typeName obj).data <:+:
        ("type error: expected a number (got " ++ typeName obj ++ ")").data ∧
      Tan m typeName [obj] =
        .ok (.Error ("type error: expected a number (got " ++ typeName obj ++ ")")) ∧
      Log m typeName [obj] =
        .ok (.Error ("type error: expected a number (got " ++ typeName obj ++ ")"))) := by
  refine ⟨fun _ => rfl, fun _ => rfl, ?_, fun h => ?_⟩
  · cases obj <;> simp [AsFloat, isNumeric]
  · have hAs : AsFloat typeName obj = (Float64.zero,
        some (.Error ("type error: expected a number (got " ++ typeName obj ++ ")"))) := by
      cases obj <;> first | rfl | simp [isNumeric] at h
    refine ⟨hAs, ⟨(": expected a number (got " ++ typeName obj ++ ")").data, ?_⟩,
      ⟨"type error: expected a number (got ".data, ")".data, ?_⟩, ?_, ?_⟩
    · simp [String.data_append]
    · simp [String.data_append]
    · unfold Tan; simp [RequireArgs_one, index, hAs]
    · unfold Log; simp [RequireArgs_one, index, hAs]

/-- C9 (witness): the amended statement at the String `"x"`. -/
theorem C9_AsFloat_witness :
    AsFloat kindNames (.String "x") =
      (Float64.zero, some (.Error "type error: expected a number (got STRING)")) ∧
    AsFloat kindNames (.Integer 3) = (Float64.three, none) :=
  ⟨((C9_AsFloat noMath kindNames (.String "x")).2.2.2 rfl).1,
    (C9_AsFloat noMath kindNames (.String "x")).1 3⟩

/-- C10: `Abs` called with one argument returns an error object exactly when the argument
is neither an Integer nor a Float, and the message is then
`type error: argument to math.abs not supported, got=` followed by the name of the
argument's kind. -/
theorem C10_Abs_type_error (typeName : TypeNames) (arg : Object) :
    ((∃ msg, Abs typeName [arg] = .ok (.Error msg)) ↔ isNumeric arg = false) ∧
    (isNumeric arg = false →
      Abs typeName [arg] = .ok (.Error
        ("type error: argument to math.abs not supported, got=" ++ typeName arg))) := by
  have hbad : isNumeric arg = false →
      Abs typeName [arg] = .ok (.Error
        ("type error: argument to math.abs not supported, got=" ++ typeName arg)) := by
    intro h
    cases arg <;> first | rfl | simp [isNumeric] at h
  refine ⟨⟨?_, fun h => ⟨_, hbad h⟩⟩, hbad⟩
  rintro ⟨msg, hmsg⟩
  cases arg with
  | Integer v => rw [Abs_Integer] at hmsg; cases hmsg
  | Float v => rw [Abs_Float] at hmsg; cases hmsg
  | _ => rfl

/-- C10 (witness): `Abs` on a String, and on an Integer. -/
theorem C10_Abs_type_error_witness :
    Abs kindNames [.String "x"] =
      .ok (.Error "type error: argument to math.abs not supported, got=STRING") ∧
    ¬ (∃ msg, Abs kindNames [.Integer (-3)] = .ok (.Error msg)) :=
  ⟨(C10_Abs_type_error kindNames (.String "x")).2 rfl,
    fun h => Bool.noConfusion ((C10_Abs_type_error kindNames (.Integer (-3))).1.1 h)⟩

/-- C11 (counterexample): `Abs` of the Float NaN is the Float NaN, and `NaN >= 0.0` is
false. -/
theorem C11_Abs_NaN_is_not_ge_zero :
    Abs kindNames [.Float Float64.nan] = .ok (.Float Float64.nan) ∧
    Float64.nan.isNaN = true ∧
    Float64.nan.ge Float64.zero = false :=
  ⟨by rfl, by decide, by decide⟩

/-- C11 (amended): for every floating-point `x`, `Abs` of the Float `x` is a Float, never
an Integer; when `x` is not a NaN (negative zero and the infinities included) its value
satisfies `value >= 0.0`, and when `x` is a NaN the result is that NaN. -/
theorem C11_Abs_Float_result (typeName : TypeNames) (x : Float64) :
    ∃ r, Abs typeName [.Float x] = .ok (.Float r) ∧
      (x.isNaN = false → r.ge Float64.zero = true) ∧
      (x.isNaN = true → r = x ∧ r.ge Float64.zero = false) := by
  refine ⟨_, Abs_Float typeName x, fun h => Float64.abs_ge_zero x h, fun h => ?_⟩
  have hn := Float64.abs_nan x h
  exact ⟨hn.1, by rw [hn.1]; exact hn.2⟩

/-- C11 (witness): negative zero, negative infinity and `-2.5` under `Abs`. -/
theorem C11_Abs_Float_result_witness :
    (∃ r, Abs kindNames [.Float Float64.negZero] = .ok (.Float r) ∧
      r.ge Float64.zero = true) ∧
    Abs kindNames [.Float Float64.negZero] = .ok (.Float Float64.negZero) ∧
    Abs kindNames [.Float Float64.twoAndAHalf.mulNegOne] = .ok (.Float Float64.twoAndAHalf) :=
  ⟨(C11_Abs_Float_result kindNames Float64.negZero).elim
      fun r hr => ⟨r, hr.1, hr.2.1 (by decide)⟩,
    by rfl, by rfl⟩

/-- C14 (counterexample): over `[1, 1.0]` the Integer 1 widened equals the Float 1.0, and
`Max` and `Min` return the Float 1.0, not the Integer 1; over `[0, -0.0]` they return the
Float `-0.0` that was in the sequence, not the widened Integer `+0.0`. -/
theorem C14_tie_returns_the_Float :
    (Float64.ofInt64 1).eq Float64.one = true ∧
    Max kindNames [.Array [.Integer 1, .Float Float64.one]] = .ok (.Float Float64.one) ∧
    Max kindNames [.Array [.Integer 1, .Float Float64.one]] ≠ .ok (.Integer 1) ∧
    Min kindNames [.Array [.Integer 1, .Float Float64.one]] = .ok (.Float Float64.one) ∧
    Min kindNames [.Array [.Integer 1, .Float Float64.one]] ≠ .ok (.Integer 1) ∧
    (Float64.ofInt64 0).eq Float64.negZero = true ∧
    Float64.ofInt64 0 ≠ Float64.negZero ∧
    Max kindNames [.Array [.Integer 0, .Float Float64.negZero]] =
      .ok (.Float Float64.negZero) ∧
    Min kindNames [.Array [.Integer 0, .Float Float64.negZero]] =
      .ok (.Float Float64.negZero) := by
  have hmax : Max kindNames [.Array [.Integer 1, .Float Float64.one]] =
      .ok (.Float Float64.one) := by rfl
  have hmin : Min kindNames [.Array [.Integer 1, .Float Float64.one]] =
      .ok (.Float Float64.one) := by rfl
  refine ⟨by decide, hmax, ?_, hmin, ?_, by decide, by decide, by rfl, by rfl⟩
  · rw [hmax]; intro h; cases h
  · rw [hmin]; intro h; cases h

/-- C14 (amended): in `Max` and `Min` over a sequence of Integers and Floats in which the
best Integer, widened to floating point, is equal to the best Float, the Float wins the
tie: the result is the Float holding the best Float seen. -/
theorem C14_tie_goes_to_the_Float (typeName : TypeNames) (arg : Object) (xs : List Object)
    (harg : elementsOf arg = some xs) (hnum : ∀ x ∈ xs, isNumeric x = true) :
    (∀ f i, bestOf maxBeatsFlt (floatsOf xs) = some f →
      bestOf maxBeatsInt (integersOf xs) = some i →
      (Float64.ofInt64 i).eq f = true → Max typeName [arg] = .ok (.Float f)) ∧
    (∀ g j, bestOf minBeatsFlt (floatsOf xs) = some g →
      bestOf minBeatsInt (integersOf xs) = some j →
      (Float64.ofInt64 j).eq g = true → Min typeName [arg] = .ok (.Float g)) := by
  constructor
  · intro f i hf hi htie
    rw [Max_numeric typeName arg xs harg (floatsOf_ne_nil_of_best hf) hnum]
    unfold widenedBest
    rw [hf, hi]
    simp [maxBeatsFlt, (Float64.not_lt_of_eq _ _ htie).2]
  · intro g j hg hj htie
    rw [Min_numeric typeName arg xs harg (floatsOf_ne_nil_of_best hg) hnum]
    unfold widenedBest
    rw [hg, hj]
    simp [minBeatsFlt, Float64.gt, (Float64.not_lt_of_eq _ _ htie).1]

/-- C14 (witness): the amended statement at `[0, -0.0]`. -/
theorem C14_tie_goes_to_the_Float_witness :
    Max kindNames [.Array [.Integer 0, .Float Float64.negZero]] =
      .ok (.Float Float64.negZero) ∧
    Min kindNames [.Array [.Integer 0, .Float Float64.negZero]] =
      .ok (.Float Float64.negZero) :=
  ⟨(C14_tie_goes_to_the_Float kindNames (.Array [.Integer 0, .Float Float64.negZero])
      [.Integer 0, .Float Float64.negZero] rfl (by simp [isNumeric])).1
      Float64.negZero 0 rfl rfl (by decide),
    (C14_tie_goes_to_the_Float kindNames (.Array [.Integer 0, .Float Float64.negZero])
      [.Integer 0, .Float Float64.negZero] rfl (by simp [isNumeric])).2
      Float64.negZero 0 rfl rfl (by decide)⟩

/-- C20: on an Integer argument `Ceil` and `Floor` return that Integer unchanged, still
an Integer; on a Float argument they return a Float, the one `math.Ceil` or `math.Floor`
computes. -/
theorem C20_Ceil_Floor_keep_the_kind (m : GoMath) (typeName : TypeNames) :
    (∀ v, Ceil m typeName [.Integer v] = .ok (.Integer v) ∧
      Floor m typeName [.Integer v] = .ok (.Integer v)) ∧
    (∀ x, Ceil m typeName [.Float x] = .ok (.Float (m.Ceil x)) ∧
      Floor m typeName [.Float x] = .ok (.Float (m.Floor x))) :=
  ⟨fun _ => ⟨by rfl, by rfl⟩, fun _ => ⟨by rfl, by rfl⟩⟩

/-- C12: `Start` on a running service returns the error `service <name> already running`
and leaves every field unchanged; `Stop` on a service that is not running returns the
error `service <name> not running` and leaves every field unchanged. `Start` returns an
error exactly when the service is running, `Stop` exactly when it is not. -/
theorem C12_Service_failed_call_changes_nothing (s : Service) :
    (s.running = true →
      s.Start = (s, some ("service " ++ s.name ++ " already running"))) ∧
    (s.running = false →
      s.Stop = (s, some ("service " ++ s.name ++ " not running"))) ∧
    (s.Start.2.isSome = true ↔ s.running = true) ∧
    (s.Stop.2.isSome = true ↔ s.running = false) := by
  refine ⟨fun h => ?_, fun h => ?_, ?_, ?_⟩
  · simp [Service.Start, h]
  · simp [Service.Stop, h]
  · by_cases h : s.running = true <;> simp [Service.Start, h]
  · by_cases h : s.running = true <;> simp [Service.Stop, h]

/-- C12 (witness): a second `Start`, and a `Stop` before any `Start`. -/
theorem C12_Service_failed_call_witness :
    (Service.mk "db" true 1 0).Start =
      (Service.mk "db" true 1 0, some "service db already running") ∧
    (Service.mk "db" false 0 0).Stop =
      (Service.mk "db" false 0 0, some "service db not running") :=
  ⟨(C12_Service_failed_call_changes_nothing (Service.mk "db" true 1 0)).1 rfl,
    (C12_Service_failed_call_changes_nothing (Service.mk "db" false 0 0)).2.1 rfl⟩

/-- C17: in every state reached from the zero `Service` by a sequence of `Start`, `Stop`,
`SetName`, `GetName`, `PrintState` and `GetMetrics` calls, `startCount - stopCount` (the
difference of Go `int`s) is `1` when running and `0` when not; for fewer than `2^63`
calls no counter has wrapped and this is the difference of the two numbers. A successful
`Start` adds one to `startCount` and a successful `Stop` adds one to `stopCount`, leaving
the other counter alone; a failing call and every other method leave `running` and both
counters unchanged. -/
theorem C17_Service_counter_invariant (calls : List Call) :
    (isInt64 (Service.zero.run calls).startCount ∧
      isInt64 (Service.zero.run calls).stopCount ∧
      wrapInt64 ((Service.zero.run calls).startCount - (Service.zero.run calls).stopCount) =
        if (Service.zero.run calls).running then 1 else 0) ∧
    ((calls.length : Int) < 9223372036854775808 →
      (Service.zero.run calls).startCount - (Service.zero.run calls).stopCount =
        if (Service.zero.run calls).running then 1 else 0) ∧
    (∀ s : Service, s.running = false →
      s.Start.2 = none ∧ s.Start.1.running = true ∧
      s.Start.1.startCount = wrapInt64 (s.startCount + 1) ∧
      (s.startCount + 1 < 9223372036854775808 → 0 ≤ s.startCount →
        s.Start.1.startCount = s.startCount + 1) ∧
      s.Start.1.stopCount = s.stopCount) ∧
    (∀ s : Service, s.running = true →
      s.Stop.2 = none ∧ s.Stop.1.running = false ∧
      s.Stop.1.stopCount = wrapInt64 (s.stopCount + 1) ∧
      (s.stopCount + 1 < 9223372036854775808 → 0 ≤ s.stopCount →
        s.Stop.1.stopCount = s.stopCount + 1) ∧
      s.Stop.1.startCount = s.startCount) ∧
    (∀ s : Service, (s.running = true → s.Start.1 = s) ∧ (s.running = false → s.Stop.1 = s)) ∧
    (∀ (s : Service) (c : Call), (∃ name, c = .SetName name) ∨ c = .GetName ∨
        c = .PrintState ∨ c = .GetMetrics →
      (s.step c).running = s.running ∧ (s.step c).startCount = s.startCount ∧
      (s.step c).stopCount = s.stopCount) := by
  refine ⟨?_, fun hlen => ?_, fun s h => ?_, fun s h => ?_, fun s => ⟨fun h => ?_, fun h => ?_⟩,
    fun s c hc => ?_⟩
  · exact Service.Balanced_run Service.zero calls ⟨by decide, by decide, by decide⟩
  · have h := Service.Counted_run Service.zero calls 0
      ⟨le_refl _, le_refl _, le_refl _, le_refl _, by decide⟩ (by simpa using hlen)
    exact h.2.2.2.2
  · refine ⟨by simp [Service.Start, h], by simp [Service.Start, h],
      by simp [Service.Start, h], fun h1 h2 => ?_, by simp [Service.Start, h]⟩
    simp only [Service.Start, h, Bool.false_eq_true, if_false]
    unfold wrapInt64
    omega
  · refine ⟨by simp [Service.Stop, h], by simp [Service.Stop, h],
      by simp [Service.Stop, h], fun h1 h2 => ?_, by simp [Service.Stop, h]⟩
    simp only [Service.Stop, h, Bool.not_true, Bool.false_eq_true, if_false]
    unfold wrapInt64
    omega
  · simp [Service.Start, h]
  · simp [Service.Stop, h]
  · rcases hc with ⟨name, hc⟩ | hc | hc | hc
    · rw [hc]; exact ⟨rfl, rfl, rfl⟩
    · rw [hc]; exact ⟨rfl, rfl, rfl⟩
    · rw [hc]; exact ⟨rfl, rfl, rfl⟩
    · rw [hc]; exact ⟨rfl, rfl, rfl⟩

/-- C17 (witness): the calls of the default script, followed by a `Stop` and a failing
`Stop`. -/
theorem C17_Service_counter_invariant_witness :
    Service.zero.run [.SetName "My Service", .Start, .PrintState, .GetMetrics] =
      Service.mk "My Service" true 1 0 ∧
    Service.zero.run [.SetName "My Service", .Start, .PrintState, .GetMetrics, .Stop, .Stop] =
      Service.mk "My Service" false 1 1 ∧
    wrapInt64 ((Service.zero.run [.SetName "My Service", .Start, .PrintState,
        .GetMetrics]).startCount -
      (Service.zero.run [.SetName "My Service", .Start, .PrintState,
        .GetMetrics]).stopCount) =
      if (Service.zero.run [.SetName "My Service", .Start, .PrintState,
        .GetMetrics]).running then 1 else 0 :=
  ⟨by decide, by decide,
    (C17_Service_counter_invariant
      [.SetName "My Service", .Start, .PrintState, .GetMetrics]).1.2.2⟩

/-- C15: for every string `s`, `sanitizeCommandValue(s)` holds no carriage return, no
line feed and no `::`. One trailing line feed is dropped; scanning from the left, `\r\n`,
`\r` and `\n` each become `%0A` (`\r\n` a single one) and `::` becomes `%3A%3A`. A string
without carriage return, line feed and `::` is returned unchanged. -/
theorem C15_sanitizeCommandValue_is_clean (s : String) :
    ('\r' ∉ (sanitizeCommandValue s).data ∧ '\n' ∉ (sanitizeCommandValue s).data ∧
      ¬ ("::".data <:+: (sanitizeCommandValue s).data)) ∧
    (sanitizeCommandValue (s ++ "\n")).data = workflowCommandReplacer s.data ∧
    (∀ rest, workflowCommandReplacer ('\r' :: '\n' :: rest) =
      "%0A".data ++ workflowCommandReplacer rest) ∧
    (∀ rest, (∀ rest1, rest ≠ '\n' :: rest1) → workflowCommandReplacer ('\r' :: rest) =
      "%0A".data ++ workflowCommandReplacer rest) ∧
    (∀ rest, workflowCommandReplacer ('\n' :: rest) =
      "%0A".data ++ workflowCommandReplacer rest) ∧
    (∀ rest, workflowCommandReplacer (':' :: ':' :: rest) =
      "%3A%3A".data ++ workflowCommandReplacer rest) ∧
    ('\r' ∉ s.data → '\n' ∉ s.data → ¬ ("::".data <:+: s.data) →
      sanitizeCommandValue s = s) := by
  refine ⟨workflowCommandReplacer_clean _, ?_, fun rest => ?_, fun rest h => ?_,
    fun rest => ?_, fun rest => ?_, fun hr hn hc => ?_⟩
  · show workflowCommandReplacer (trimSuffixNewline (s ++ "\n").data) = _
    rw [String.data_append]
    exact congrArg _ (trimSuffixNewline_append s.data)
  · simp only [workflowCommandReplacer]; rfl
  · rw [workflowCommandReplacer_cr rest h]; rfl
  · simp only [workflowCommandReplacer]; rfl
  · simp only [workflowCommandReplacer]; rfl
  · unfold sanitizeCommandValue
    rw [trimSuffixNewline_id _ hn, workflowCommandReplacer_id _ hr hn hc]

/-- C15 (witness): a value with line ends and `::`, and a plain one. -/
theorem C15_sanitizeCommandValue_witness :
    sanitizeCommandValue "a\r\nb::c\rd\n\n" = "a%0Ab%3A%3Ac%0Ad%0A" ∧
    sanitizeCommandValue ":::" = "%3A%3A:" ∧
    sanitizeCommandValue "name=x y" = "name=x y" :=
  ⟨by decide, by decide,
    (C15_sanitizeCommandValue_is_clean "name=x y").2.2.2.2.2.2
      (by decide) (by decide) (by decide)⟩

/-- C13: `runWorkflowCommand` hands the writer exactly the text
`"::" + cmd + stringifyCommandProps(props) + "::" + sanitizeCommandValue(Sprint(value)) + "\n"`;
it returns Nil when the write succeeds and, when the write fails with error `e`, the
error object with message `io error: ` followed by the text of `e`. -/
theorem C13_runWorkflowCommand_reports_the_write {σ : Type} (w : Writer σ) (st : σ)
    (cmd : String) (value : GoAny) (props : GoMap) :
    (runWorkflowCommand w st cmd value props).1 =
      (w.Write st ("::" ++ cmd ++ stringifyCommandProps props ++ "::" ++
        sanitizeCommandValue value.Sprint ++ "\n")).1 ∧
    ((w.Write st ("::" ++ cmd ++ stringifyCommandProps props ++ "::" ++
        sanitizeCommandValue value.Sprint ++ "\n")).2 = none →
      (runWorkflowCommand w st cmd value props).2 = .Nil) ∧
    (∀ e, (w.Write st ("::" ++ cmd ++ stringifyCommandProps props ++ "::" ++
        sanitizeCommandValue value.Sprint ++ "\n")).2 = some e →
      (runWorkflowCommand w st cmd value props).2 = .Error ("io error: " ++ e)) ∧
    (∀ (fails : String → Option String) (log : List String),
      (runWorkflowCommand (recorder fails) log cmd value props).1 =
        log ++ ["::" ++ cmd ++ stringifyCommandProps props ++ "::" ++
          sanitizeCommandValue value.Sprint ++ "\n"]) := by
  have key : ∀ {τ : Type} (u : Writer τ) (t : τ),
      runWorkflowCommand u t cmd value props =
        ((u.Write t (workflowCommandText cmd value props)).1,
          match (u.Write t (workflowCommandText cmd value props)).2 with
          | some err => .Error ("io error: " ++ err)
          | none => .Nil) := by
    intro τ u t
    unfold runWorkflowCommand
    rcases u.Write t (workflowCommandText cmd value props) with ⟨t1, _ | err⟩ <;> rfl
  refine ⟨?_, fun h => ?_, fun e h => ?_, fun fails log => ?_⟩
  · rw [key]; rfl
  · rw [key]
    have h1 : (w.Write st (workflowCommandText cmd value props)).2 = none := h
    simp only [h1]
  · rw [key]
    have h1 : (w.Write st (workflowCommandText cmd value props)).2 = some e := h
    simp only [h1]
  · rw [key]; rfl

/-- C13 (witness): the `debug` command on a writer that fails, and on one that does not. -/
theorem C13_runWorkflowCommand_witness :
    runWorkflowCommand (recorder fun _ => some "disk full") [] "debug" ⟨"a::b\n"⟩ [] =
      (["::debug::a%3A%3Ab\n"], .Error "io error: disk full") ∧
    runWorkflowCommand (recorder fun _ => none) [] "notice" ⟨"hi"⟩
        [("title", ⟨"T"⟩), ("col", ⟨"3"⟩)] =
      (["::notice title=T,col=3::hi\n"], .Nil) ∧
    (runWorkflowCommand (recorder fun _ => some "disk full") [] "debug" ⟨"a::b\n"⟩ []).2 =
      .Error ("io error: " ++ "disk full") :=
  ⟨by rfl, by rfl,
    (C13_runWorkflowCommand_reports_the_write (recorder fun _ => some "disk full") []
      "debug" ⟨"a::b\n"⟩ []).2.2.1 "disk full" rfl⟩

/-- C16: for every key and value and every random source, `workflowFileKeyValue` returns
`key + "<<" + d + "\n" + value + "\n" + d`, where the delimiter `d` begins with `EOF`, is
followed only by characters of `A-Z0-9`, and is a substring neither of `key` nor of
`value`; when neither holds `EOF`, `d` is exactly `EOF`. -/
theorem C16_workflowFileKeyValue_delimiter (rand : Nat → Fin 36) (key value : GoAny) :
    ∃ d : String,
      workflowFileKeyValueEOF rand key.Sprint value.Sprint = some d ∧
      workflowFileKeyValue rand key value =
        some (key.Sprint ++ "<<" ++ d ++ "\n" ++ value.Sprint ++ "\n" ++ d) ∧
      "EOF".data <+: d.data ∧
      (∀ c ∈ d.data.drop 3, c ∈ charset.data ∧
        (('A' ≤ c ∧ c ≤ 'Z') ∨ ('0' ≤ c ∧ c ≤ '9'))) ∧
      ¬ (d.data <:+: key.Sprint.data) ∧ ¬ (d.data <:+: value.Sprint.data) ∧
      (¬ ("EOF".data <:+: key.Sprint.data) → ¬ ("EOF".data <:+: value.Sprint.data) →
        d = "EOF") := by
  obtain ⟨d, ext, h1, h2, h3, h4, h5, h6⟩ :=
    eofLoop_spec rand key.Sprint value.Sprint (max key.Sprint.length value.Sprint.length) 0
      "EOF".data (Nat.add_le_add_left (by decide) _)
  have hEOF : workflowFileKeyValueEOF rand key.Sprint value.Sprint = some ⟨d⟩ := by
    unfold workflowFileKeyValueEOF
    rw [h1]; rfl
  refine ⟨⟨d⟩, hEOF, ?_, ⟨ext, h2.symm⟩, ?_, h4, h5, fun hk hv => ?_⟩
  · unfold workflowFileKeyValue
    rw [hEOF]; rfl
  · intro c hc
    have hdrop : d.drop 3 = ext := by
      rw [h2]
      exact List.drop_left' rfl
    have hmem : c ∈ ext := by
      have hc1 : c ∈ d.drop 3 := hc
      rw [hdrop] at hc1
      exact hc1
    exact ⟨h3 c hmem, charset_upper_or_digit c (h3 c hmem)⟩
  · have := h6 hk hv
    rw [this]

/-- C16 (witness): a value that holds `EOF`, with a random source that always draws the
first character of the set, and a value that does not. -/
theorem C16_workflowFileKeyValue_witness :
    workflowFileKeyValue (fun _ => 0) ⟨"k"⟩ ⟨"an EOF, an EOFA"⟩ =
      some "k<<EOFAA\nan EOF, an EOFA\nEOFAA" ∧
    workflowFileKeyValue (fun _ => 0) ⟨"k"⟩ ⟨"v"⟩ = some "k<<EOF\nv\nEOF" ∧
    (∃ d : String, workflowFileKeyValueEOF (fun _ => 0) "k" "v" = some d ∧ d = "EOF") :=
  ⟨by decide, by decide,
    (C16_workflowFileKeyValue_delimiter (fun _ => 0) ⟨"k"⟩ ⟨"v"⟩).elim
      fun d hd => ⟨d, hd.1, hd.2.2.2.2.2.2 (by decide) (by decide)⟩⟩

/-- C18: `commandPropKey` accepts exactly `title`, `file`, `line`, `column`, `end_line`
and `end_column`, mapping the first three to themselves and the others to `col`,
`endLine` and `endColumn`, and rejects every other string. The keys of
`asCommandProps(map)` are among `title`, `file`, `line`, `col`, `endLine`, `endColumn`:
each comes from an accepted key of the map, every accepted key of the map gives one, and
an entry under any other key is dropped. -/
theorem C18_commandPropKey_and_asCommandProps (o : ObjectMethods) (obj : ObjectMap) :
    (commandPropKey "title" = ("title", true) ∧ commandPropKey "file" = ("file", true) ∧
      commandPropKey "line" = ("line", true) ∧ commandPropKey "column" = ("col", true) ∧
      commandPropKey "end_line" = ("endLine", true) ∧
      commandPropKey "end_column" = ("endColumn", true)) ∧
    (∀ key, key ∉ ["title", "file", "line", "column", "end_line", "end_column"] →
      commandPropKey key = ("", false)) ∧
    (∀ k ∈ (asCommandProps o obj).map Prod.fst,
      k ∈ ["title", "file", "line", "col", "endLine", "endColumn"] ∧
      ∃ key ∈ obj.StringKeys,
        key ∈ ["title", "file", "line", "column", "end_line", "end_column"] ∧
        commandPropKey key = (k, true)) ∧
    (∀ key ∈ obj.StringKeys, ∀ cmdKey, commandPropKey key = (cmdKey, true) →
      cmdKey ∈ (asCommandProps o obj).map Prod.fst) := by
  refine ⟨⟨by decide, by decide, by decide, by decide, by decide, by decide⟩,
    commandPropKey_rejects, fun k hk => ?_, fun key hkey cmdKey hc => ?_⟩
  · obtain hinit | ⟨key, hkey, hc⟩ :=
      (mem_keys_asCommandProps_loop o obj obj.StringKeys [] k).1 hk
    · simp at hinit
    · have hcases := commandPropKey_accepts key k hc
      refine ⟨?_, key, hkey, ?_, hc⟩
      · rcases hcases with ⟨_, h⟩ | ⟨_, h⟩ | ⟨_, h⟩ | ⟨_, h⟩ | ⟨_, h⟩ | ⟨_, h⟩ <;>
          rw [h] <;> decide
      · rcases hcases with ⟨h, _⟩ | ⟨h, _⟩ | ⟨h, _⟩ | ⟨h, _⟩ | ⟨h, _⟩ | ⟨h, _⟩ <;>
          rw [h] <;> decide
  · exact (mem_keys_asCommandProps_loop o obj obj.StringKeys [] cmdKey).2
      (Or.inr ⟨key, hkey, hc⟩)

/-- C18 (witness): a map with the keys `title`, `colour` and `column`. -/
theorem C18_asCommandProps_witness :
    asCommandProps sampleMethods
        { StringKeys := ["title", "colour", "column"], Get := fun k => .String k } =
      [("title", ⟨"title"⟩), ("col", ⟨"column"⟩)] ∧
    "col" ∈ (asCommandProps sampleMethods
        { StringKeys := ["title", "colour", "column"], Get := fun k => .String k }).map
      Prod.fst :=
  ⟨by decide,
    (C18_commandPropKey_and_asCommandProps sampleMethods
      { StringKeys := ["title", "colour", "column"], Get := fun k => .String k }).2.2.2
      "column" (by decide) "col" (by decide)⟩

/-- C19: `IsDebug` called with no argument returns True exactly when `RUNNER_DEBUG` is
set and its value is `1`, and False otherwise; called with one or more arguments it
returns an error object, the same whatever the environment holds. -/
theorem C19_IsDebug (arityText : String → Int → Nat → String)
    (LookupEnv : String → Option String) (args : List Object) :
    (args = [] →
      (IsDebug arityText LookupEnv args = .Boolean true ↔
        LookupEnv "RUNNER_DEBUG" = some "1") ∧
      (LookupEnv "RUNNER_DEBUG" ≠ some "1" →
        IsDebug arityText LookupEnv args = .Boolean false)) ∧
    (args ≠ [] →
      ∃ msg, IsDebug arityText LookupEnv args = .Error msg ∧
        ∀ env : String → Option String, IsDebug arityText env args = .Error msg) := by
  constructor
  · intro hargs
    subst hargs
    have hreq : Require arityText "gha.is_debug" 0 [] = none := by simp [Require]
    unfold IsDebug
    rw [hreq]
    cases henv : LookupEnv "RUNNER_DEBUG" with
    | none => simp
    | some v =>
      by_cases hv : v = "1"
      · simp [hv]
      · simp [hv]
  · intro hargs
    have hlen : (args.length : Int) ≠ 0 := by
      intro h
      exact hargs (List.length_eq_zero.1 (by exact_mod_cast h))
    have hreq : Require arityText "gha.is_debug" 0 args =
        some (.Error (arityText "gha.is_debug" 0 args.length)) := by
      simp [Require, hlen]
    refine ⟨arityText "gha.is_debug" 0 args.length, ?_, fun env => ?_⟩
    · unfold IsDebug; rw [hreq]
    · unfold IsDebug; rw [hreq]

/-- C19 (witness): `RUNNER_DEBUG=1`, `RUNNER_DEBUG=true`, unset, and a call with an
argument. -/
theorem C19_IsDebug_witness :
    IsDebug sampleArityText (fun n => if n = "RUNNER_DEBUG" then some "1" else none) [] =
      .Boolean true ∧
    IsDebug sampleArityText (fun n => if n = "RUNNER_DEBUG" then some "true" else none) [] =
      .Boolean false ∧
    IsDebug sampleArityText (fun _ => none) [] = .Boolean false ∧
    IsDebug sampleArityText (fun n => if n = "RUNNER_DEBUG" then some "1" else none)
      [.Integer 1] = .Error "arity error: gha.is_debug (1 given)" :=
  ⟨((C19_IsDebug sampleArityText (fun n => if n = "RUNNER_DEBUG" then some "1" else none)
      []).1 rfl).1.2 (by decide),
    by rfl, by rfl, by rfl⟩

end Risor
